import Mathlib

/-!
Shallow embedding of the dat-schema reader (`src/reader.ts`): the GraphQL-SDL
syntax-tree data model, the directive specifications, the symbol-table builder,
the column resolver and the enumeration resolver, together with theorems about
the claims of the specification.

Conventions of the embedding:
* JavaScript exceptions become `Except RError`; `GraphQLError(msg, nodes,
  originalError?)` becomes `RError.graphQLError`, `assert.ok` failures become
  `RError.assertionError` tagged with the asserted expression.
* JavaScript `Map` objects become insertion-ordered association lists.
* JavaScript string truthiness (`if (refFieldName)`) is modelled explicitly:
  the empty string is falsy.
-/

namespace DatSchema

/-- A GraphQL name node (`NameNode`): carries the identifier text. -/
structure NameNode where
  value : String
  deriving Repr

/-- GraphQL value nodes, as far as the reader inspects them: string values,
integer values, list values, and everything else collapsed to `otherValue`
(the reader only ever tests the `kind` discriminator against these three). -/
inductive ValueNode where
  | stringValue (value : String)
  | intValue (value : Int)
  | listValue (values : List ValueNode)
  | otherValue
  deriving Repr

/-- A directive argument: a name and a value. -/
structure ArgumentNode where
  name : NameNode
  value : ValueNode
  deriving Repr

/-- A directive occurrence: a name and an optional argument list
(`arguments?: ReadonlyArray<ArgumentNode>` in graphql-js). -/
structure DirectiveNode where
  name : NameNode
  arguments : Option (List ArgumentNode)
  deriving Repr

/-- A GraphQL type node: a named type, a list wrapper, or a non-null wrapper. -/
inductive TypeNode where
  | namedType (name : NameNode)
  | listType (type : TypeNode)
  | nonNullType (type : TypeNode)
  deriving Repr

/-- A field definition: name, optional description (the description node's
string payload), declared type, and optional directives. -/
structure FieldDefinitionNode where
  name : NameNode
  description : Option String
  type : TypeNode
  directives : Option (List DirectiveNode)
  deriving Repr

/-- An enum value definition node (only its name is consulted). -/
structure EnumValueDefinitionNode where
  name : NameNode
  deriving Repr

/-- An object type ("table") definition: name, optional directives and
optional field list (`fields` is absent when the declaration has no body). -/
structure ObjectTypeDefinitionNode where
  name : NameNode
  directives : Option (List DirectiveNode)
  fields : Option (List FieldDefinitionNode)
  deriving Repr

/-- An enum type definition: name, optional directives, optional values. -/
structure EnumTypeDefinitionNode where
  name : NameNode
  directives : Option (List DirectiveNode)
  values : Option (List EnumValueDefinitionNode)
  deriving Repr

/-- A top-level definition of a parsed document: an object type definition,
an enum type definition, or any other definition kind. -/
inductive DefinitionNode where
  | objectTypeDefinition (node : ObjectTypeDefinitionNode)
  | enumTypeDefinition (node : EnumTypeDefinitionNode)
  | otherDefinition
  deriving Repr

/-- The syntax node (or nodes) an error is attributed to, mirroring the
`nodes:` option passed to each `GraphQLError` constructor call. -/
inductive ErrorNode where
  | nameNode (node : NameNode)
  | valueNode (node : ValueNode)
  | argumentNodes (nodes : List ArgumentNode)
  | directiveNode (node : DirectiveNode)
  | typeNode (node : TypeNode)
  | fieldNode (node : FieldDefinitionNode)
  | enumNode (node : EnumTypeDefinitionNode)
  | definitionNode (node : DefinitionNode)
  | optDirective (node : Option DirectiveNode)
  deriving Repr

/-- Errors raised by the reader: user-facing `GraphQLError`s (message,
offending node(s), optional wrapped original error) and internal
`assert.ok` failures (tagged with the asserted expression). -/
inductive RError where
  | graphQLError (message : String) (nodes : ErrorNode) (originalError : Option RError)
  | assertionError (info : String)
  deriving Repr

/-- The recognized scalar type names (`ScalarTypes` set in the source). -/
def ScalarTypes : List String := ["bool", "string", "i16", "i32", "f32"]

/-- Length of an optional argument list (`directive.arguments?.length`,
with `undefined` counting as 0). -/
def argsLen : Option (List ArgumentNode) → Nat
  | none => 0
  | some l => l.length

/-- The argument loop of `DIRECTIVE_REF.validate`: every argument must be
named `column` and carry a string value. -/
def validateRefArgs : List ArgumentNode → Except RError Unit
  | [] => .ok ()
  | arg :: rest =>
    if arg.name.value = "column" then
      match arg.value with
      | .stringValue _ => validateRefArgs rest
      | v => .error (.graphQLError "String expected." (.valueNode v) none)
    else
      .error (.graphQLError ("Unknown argument \"" ++ arg.name.value ++ "\".")
        (.nameNode arg.name) none)

/-- `DIRECTIVE_REF.validate`: a non-empty argument list is required, then
each argument is checked by `validateRefArgs`. -/
def validateRef (directive : DirectiveNode) : Except RError Unit :=
  if argsLen directive.arguments = 0 then
    .error (.graphQLError "Missing referenced column name." (.directiveNode directive) none)
  else validateRefArgs (directive.arguments.getD [])

/-- `DIRECTIVE_UNIQUE.validate` and `DIRECTIVE_LOCALIZED.validate` (identical
bodies in the source): the directive accepts no arguments. -/
def validateNoArguments (directive : DirectiveNode) : Except RError Unit :=
  if argsLen directive.arguments ≠ 0 then
    .error (.graphQLError "Directive doesn\x27t accept arguments."
      (.argumentNodes (directive.arguments.getD [])) none)
  else .ok ()

/-- The argument loop of `DIRECTIVE_FILE.validate`: every argument must be
named `ext` and carry a string value. -/
def validateFileArgs : List ArgumentNode → Except RError Unit
  | [] => .ok ()
  | arg :: rest =>
    if arg.name.value = "ext" then
      match arg.value with
      | .stringValue _ => validateFileArgs rest
      | v => .error (.graphQLError "String expected." (.valueNode v) none)
    else
      .error (.graphQLError ("Unknown argument \"" ++ arg.name.value ++ "\".")
        (.nameNode arg.name) none)

/-- `DIRECTIVE_FILE.validate`. -/
def validateFile (directive : DirectiveNode) : Except RError Unit :=
  if argsLen directive.arguments = 0 then
    .error (.graphQLError "Missing file extension." (.directiveNode directive) none)
  else validateFileArgs (directive.arguments.getD [])

/-- The element loop shared by the `files` validator: every list element must
be a string value. -/
def checkStringListValues : List ValueNode → Except RError Unit
  | [] => .ok ()
  | .stringValue _ :: rest => checkStringListValues rest
  | v :: _ => .error (.graphQLError "String expected." (.valueNode v) none)

/-- The argument loop of `DIRECTIVE_FILES_GROUP.validate`: every argument must
be named `ext` and carry a list of strings (an empty list is allowed). -/
def validateFilesGroupArgs : List ArgumentNode → Except RError Unit
  | [] => .ok ()
  | arg :: rest =>
    if arg.name.value = "ext" then
      match arg.value with
      | .listValue values =>
        match checkStringListValues values with
        | .error e => .error e
        | .ok _ => validateFilesGroupArgs rest
      | v => .error (.graphQLError "List of extensions expected." (.valueNode v) none)
    else
      .error (.graphQLError ("Unknown argument \"" ++ arg.name.value ++ "\".")
        (.nameNode arg.name) none)

/-- `DIRECTIVE_FILES_GROUP.validate`. -/
def validateFilesGroup (directive : DirectiveNode) : Except RError Unit :=
  if argsLen directive.arguments = 0 then
    .error (.graphQLError "Missing file extensions." (.directiveNode directive) none)
  else validateFilesGroupArgs (directive.arguments.getD [])

/-- The argument loop of `DIRECTIVE_ENUM_INDEXING.validate`: every argument
must be named `first` and carry the integer value 0 or 1. -/
def validateIndexingArgs : List ArgumentNode → Except RError Unit
  | [] => .ok ()
  | arg :: rest =>
    if arg.name.value = "first" then
      match arg.value with
      | .intValue n =>
        if n ≠ 0 ∧ n ≠ 1 then
          .error (.graphQLError "Integer 0 or 1 expected." (.valueNode (.intValue n)) none)
        else validateIndexingArgs rest
      | v => .error (.graphQLError "Integer 0 or 1 expected." (.valueNode v) none)
    else
      .error (.graphQLError ("Unknown argument \"" ++ arg.name.value ++ "\".")
        (.nameNode arg.name) none)

/-- `DIRECTIVE_ENUM_INDEXING.validate`. -/
def validateIndexing (directive : DirectiveNode) : Except RError Unit :=
  if argsLen directive.arguments = 0 then
    .error (.graphQLError "Missing first enumerator index." (.directiveNode directive) none)
  else validateIndexingArgs (directive.arguments.getD [])

/-- The argument loop of `DIRECTIVE_TABLE_TAGS.validate`: every argument must
be named `list` and carry a non-empty list of strings. -/
def validateTagsArgs : List ArgumentNode → Except RError Unit
  | [] => .ok ()
  | arg :: rest =>
    if arg.name.value = "list" then
      match arg.value with
      | .listValue values =>
        match values with
        | [] => .error (.graphQLError "At least one tag should be in the list."
            (.valueNode (.listValue values)) none)
        | _ =>
          match checkStringListValues values with
          | .error e => .error e
          | .ok _ => validateTagsArgs rest
      | v => .error (.graphQLError "List of tags expected." (.valueNode v) none)
    else
      .error (.graphQLError ("Unknown argument \"" ++ arg.name.value ++ "\".")
        (.nameNode arg.name) none)

/-- `DIRECTIVE_TABLE_TAGS.validate`. -/
def validateTags (directive : DirectiveNode) : Except RError Unit :=
  if argsLen directive.arguments = 0 then
    .error (.graphQLError "Missing list of tags." (.directiveNode directive) none)
  else validateTagsArgs (directive.arguments.getD [])

/-- A directive specification: its name and its validation routine. -/
structure DirectiveSpec where
  name : String
  validate : DirectiveNode → Except RError Unit

/-- `DIRECTIVE_REF`. -/
def DIRECTIVE_REF : DirectiveSpec := { name := "ref", validate := validateRef }

/-- `DIRECTIVE_UNIQUE`. -/
def DIRECTIVE_UNIQUE : DirectiveSpec := { name := "unique", validate := validateNoArguments }

/-- `DIRECTIVE_LOCALIZED`. -/
def DIRECTIVE_LOCALIZED : DirectiveSpec := { name := "localized", validate := validateNoArguments }

/-- `DIRECTIVE_FILE`. -/
def DIRECTIVE_FILE : DirectiveSpec := { name := "file", validate := validateFile }

/-- `DIRECTIVE_FILES_GROUP`. -/
def DIRECTIVE_FILES_GROUP : DirectiveSpec := { name := "files", validate := validateFilesGroup }

/-- `DIRECTIVE_ENUM_INDEXING`. -/
def DIRECTIVE_ENUM_INDEXING : DirectiveSpec :=
  { name := "indexing", validate := validateIndexing }

/-- `DIRECTIVE_TABLE_TAGS`. -/
def DIRECTIVE_TABLE_TAGS : DirectiveSpec := { name := "tags", validate := validateTags }

/-- `validateDirectives`: each attached directive must match a specification
by name (otherwise: unknown-directive error) and pass its validation. -/
def validateDirectivesList (specs : List DirectiveSpec) :
    List DirectiveNode → Except RError Unit
  | [] => .ok ()
  | d :: rest =>
    match specs.find? (fun spec => spec.name == d.name.value) with
    | some spec =>
      match spec.validate d with
      | .error e => .error e
      | .ok _ => validateDirectivesList specs rest
    | none =>
      .error (.graphQLError ("Unknown directive \"" ++ d.name.value ++ "\".")
        (.nameNode d.name) none)

/-- `validateDirectives` on a node's optional directive list
(`node.directives ?? []`). -/
def validateDirectives (directives : Option (List DirectiveNode))
    (specs : List DirectiveSpec) : Except RError Unit :=
  validateDirectivesList specs (directives.getD [])

/-- `findDirective`: the first attached directive with the given name. -/
def findDirective (directives : Option (List DirectiveNode)) (name : String) :
    Option DirectiveNode :=
  (directives.getD []).find? (fun directive => directive.name.value == name)

/-- `isUnique`: presence of the `unique` directive. -/
def isUnique (field : FieldDefinitionNode) : Bool :=
  (findDirective field.directives DIRECTIVE_UNIQUE.name).isSome

/-- `isLocalized`: presence of the `localized` directive. -/
def isLocalized (field : FieldDefinitionNode) : Bool :=
  (findDirective field.directives DIRECTIVE_LOCALIZED.name).isSome

/-- `referencesField`: the `column` argument of a `ref` directive, if one is
attached; the argument-list shape is enforced by `assert.ok`, not by a
user-facing error. -/
def referencesField (field : FieldDefinitionNode) : Except RError (Option String) :=
  match findDirective field.directives DIRECTIVE_REF.name with
  | none => .ok none
  | some directive =>
    match directive.arguments with
    | some [arg] =>
      if arg.name.value = "column" then
        match arg.value with
        | .stringValue s => .ok (some s)
        | _ => .error (.assertionError "referencesField: args shape")
      else .error (.assertionError "referencesField: args shape")
    | _ => .error (.assertionError "referencesField: args shape")

/-- The result of `unwrapType`: whether one list wrapper was stripped, and
the remaining base type name. -/
structure TypeInfo where
  array : Bool
  name : String
  deriving Repr

/-- `unwrapType`: strip at most one list wrapper; the remainder must be a
named type, and the placeholder `_` is only legal inside a list. -/
def unwrapType (field : FieldDefinitionNode) : Except RError TypeInfo :=
  let stripped : Bool × TypeNode :=
    match field.type with
    | .listType t => (true, t)
    | t => (false, t)
  match stripped.2 with
  | .namedType n =>
    if n.value = "_" ∧ stripped.1 = false then
      .error (.graphQLError "Unknown type is only allowed inside an array."
        (.typeNode field.type) none)
    else .ok { array := stripped.1, name := n.value }
  | _ => .error (.graphQLError "Valid type expected." (.typeNode field.type) none)

/-- `getFileExtension`: the `ext` argument of a `file` directive (shape
enforced by `assert.ok`). -/
def getFileExtension (field : FieldDefinitionNode) : Except RError (Option String) :=
  match findDirective field.directives DIRECTIVE_FILE.name with
  | none => .ok none
  | some directive =>
    match directive.arguments with
    | some [arg] =>
      if arg.name.value = "ext" then
        match arg.value with
        | .stringValue s => .ok (some s)
        | _ => .error (.assertionError "getFileExtension: args shape")
      else .error (.assertionError "getFileExtension: args shape")
    | _ => .error (.assertionError "getFileExtension: args shape")

/-- The element map shared by `getFileGroupExtensions` and `getTags`: each
list element is asserted to be a string value and its payload collected. -/
def assertStringValues (info : String) : List ValueNode → Except RError (List String)
  | [] => .ok []
  | .stringValue s :: rest =>
    match assertStringValues info rest with
    | .error e => .error e
    | .ok r => .ok (s :: r)
  | _ :: _ => .error (.assertionError info)

/-- `getFileGroupExtensions`: the `ext` list argument of a `files` directive
(shape enforced by `assert.ok`). -/
def getFileGroupExtensions (field : FieldDefinitionNode) :
    Except RError (Option (List String)) :=
  match findDirective field.directives DIRECTIVE_FILES_GROUP.name with
  | none => .ok none
  | some directive =>
    match directive.arguments with
    | some [arg] =>
      if arg.name.value = "ext" then
        match arg.value with
        | .listValue values =>
          match assertStringValues "getFileGroupExtensions: string element" values with
          | .error e => .error e
          | .ok r => .ok (some r)
        | _ => .error (.assertionError "getFileGroupExtensions: args shape")
      else .error (.assertionError "getFileGroupExtensions: args shape")
    | _ => .error (.assertionError "getFileGroupExtensions: args shape")

/-- `getTags`: the `list` argument of a `tags` directive, or the empty list
when the directive is absent (shape enforced by `assert.ok`). -/
def getTags (node : ObjectTypeDefinitionNode) : Except RError (List String) :=
  match findDirective node.directives DIRECTIVE_TABLE_TAGS.name with
  | none => .ok []
  | some directive =>
    match directive.arguments with
    | some [arg] =>
      if arg.name.value = "list" then
        match arg.value with
        | .listValue values => assertStringValues "getTags: string element" values
        | _ => .error (.assertionError "getTags: args shape")
      else .error (.assertionError "getTags: args shape")
    | _ => .error (.assertionError "getTags: args shape")

/-- `getIndexingBase`: the `first` argument of the `indexing` directive
(presence and shape enforced by `assert.ok`). -/
def getIndexingBase (node : EnumTypeDefinitionNode) : Except RError Int :=
  match findDirective node.directives DIRECTIVE_ENUM_INDEXING.name with
  | none => .error (.assertionError "getIndexingBase: directive")
  | some directive =>
    match directive.arguments with
    | some [arg] =>
      if arg.name.value = "first" then
        match arg.value with
        | .intValue first =>
          if first = 0 ∨ first = 1 then .ok first
          else .error (.assertionError "getIndexingBase: first === 0 || first === 1")
        | _ => .error (.assertionError "getIndexingBase: args shape")
      else .error (.assertionError "getIndexingBase: args shape")
    | _ => .error (.assertionError "getIndexingBase: args shape")

/-- `findReferencedField`: look up a field by name in the referenced table's
declaration and validate that it is non-array, unique and scalar; returns the
target's scalar type name, or `none` when no field of that name exists. -/
def findReferencedField (typeNode : ObjectTypeDefinitionNode) (name : String) :
    Except RError (Option String) :=
  match typeNode.fields with
  | none => .error (.assertionError "findReferencedField: typeNode.fields != null")
  | some fields =>
    match fields.find? (fun field => field.name.value == name) with
    | none => .ok none
    | some fieldNode =>
      match unwrapType fieldNode with
      | .error e => .error e
      | .ok typeInfo =>
        if typeInfo.array then
          .error (.graphQLError "Сannot refer to a column with an array type."
            (.typeNode fieldNode.type) none)
        else if ¬ isUnique fieldNode then
          .error (.graphQLError "Values in the referenced column must be unique."
            (.fieldNode fieldNode) none)
        else if ¬ ScalarTypes.contains typeInfo.name then
          .error (.graphQLError "Сannot refer to a column with a non-scalar type."
            (.typeNode fieldNode.type) none)
        else .ok (some typeInfo.name)

/-- The reference target of a column (`TableColumn['references']` payload):
the referenced table (or enumeration) name, plus the referenced column name
once a `ref` directive has been resolved. -/
structure Refs where
  table : String
  column : Option String := none
  deriving Repr

/-- A resolved column of the output model (`TableColumn`). The `type` field
is carried as a string, exactly as the source juggles the type name before
casting it to `ColumnType`. -/
structure TableColumn where
  name : Option String
  description : Option String
  array : Bool
  type : String
  unique : Bool
  localized : Bool
  references : Option Refs
  until_ : Option String
  file : Option String
  files : Option (List String)
  deriving Repr

/-- A resolved table of the output model (`SchemaTable`). -/
structure SchemaTable where
  name : String
  columns : List TableColumn
  tags : List String
  deriving Repr

/-- A resolved enumeration of the output model (`SchemaEnumeration`). -/
structure SchemaEnumeration where
  name : String
  indexing : Int
  enumerators : List (Option String)
  deriving Repr

/-- The output of `readSchemaSources`
(`Pick<SchemaFile, 'tables' | 'enumerations'>`). -/
structure SchemaFilePart where
  tables : List SchemaTable
  enumerations : List SchemaEnumeration
  deriving Repr

/-- Lookup in an insertion-ordered association list (a JavaScript `Map`). -/
def lookupMap {α : Type} (m : List (String × α)) (k : String) : Option α :=
  (m.find? (fun p => p.1 == k)).map Prod.snd

/-- The `Context` threaded through field resolution: the two symbol maps. -/
structure Context where
  typeDefsMap : List (String × ObjectTypeDefinitionNode)
  enumDefsMap : List (String × EnumTypeDefinitionNode)

/-- The classification chain of `parseFieldNode` (lines 340–360): determine
the column's type name and reference target from the unwrapped base name. -/
def classifyFieldType (ctx : Context) (tableName : String)
    (fieldNode : FieldDefinitionNode) (fieldType : TypeInfo) :
    Except RError (TypeInfo × Option Refs) :=
  if fieldType.name = tableName then
    .ok ({ fieldType with name := "row" }, some { table := tableName })
  else if fieldType.name = "rid" then
    .ok ({ fieldType with name := "foreignrow" }, none)
  else if fieldType.name = "_" ∧ fieldType.array then
    .ok ({ fieldType with name := "array" }, none)
  else if ¬ ScalarTypes.contains fieldType.name then
    if (lookupMap ctx.typeDefsMap fieldType.name).isSome then
      .ok ({ fieldType with name := "foreignrow" }, some { table := fieldType.name })
    else if (lookupMap ctx.enumDefsMap fieldType.name).isSome then
      .ok ({ fieldType with name := "enumrow" }, some { table := fieldType.name })
    else
      .error (.graphQLError
        ("Can\x27t find referenced table/enum \"" ++ fieldType.name ++ "\".")
        (.typeNode fieldNode.type) none)
  else .ok (fieldType, none)

/-- The referenced-column block of `parseFieldNode` (lines 362–388): when a
`ref` directive named a column (JavaScript truthiness: a non-empty name),
assert a reference target exists, record the column name, look the target
table up among the type definitions (`assert.ok(refDefNode)`), resolve the
referenced field, and overwrite the column's type with the target's scalar
type. -/
def resolveRefColumn (ctx : Context) (fieldNode : FieldDefinitionNode)
    (refFieldName : Option String) (fieldType : TypeInfo)
    (references : Option Refs) : Except RError (TypeInfo × Option Refs) :=
  match refFieldName with
  | none => .ok (fieldType, references)
  | some refName =>
    if refName = "" then .ok (fieldType, references)
    else
      match references with
      | none => .error (.assertionError "references?.table")
      | some refs =>
        if refs.table = "" then .error (.assertionError "references?.table")
        else
          let references := some { refs with column := some refName }
          match lookupMap ctx.typeDefsMap refs.table with
          | none => .error (.assertionError "refDefNode")
          | some refDefNode =>
            match findReferencedField refDefNode refName with
            | .error e =>
              .error (.graphQLError
                "An error occurred while validating the referenced column."
                (.optDirective (findDirective fieldNode.directives DIRECTIVE_REF.name))
                (some e))
            | .ok refFieldType =>
              match refFieldType with
              | none =>
                .error (.graphQLError
                  ("Can\x27t find column \"" ++ refName ++ "\" in table \""
                    ++ refs.table ++ "\".")
                  (.optDirective (findDirective fieldNode.directives DIRECTIVE_REF.name))
                  none)
              | some t =>
                if t = "" then
                  .error (.graphQLError
                    ("Can\x27t find column \"" ++ refName ++ "\" in table \""
                      ++ refs.table ++ "\".")
                    (.optDirective (findDirective fieldNode.directives DIRECTIVE_REF.name))
                    none)
                else .ok ({ fieldType with name := t }, references)

/-- The `assert.ok` expression closing `parseFieldNode` (lines 390–396). -/
def closingAssertInfo : String :=
  "ScalarTypes.has(fieldType.name) || fieldType.name === closed column type"

/-- `parseFieldNode`: validate the field's directives, read the `unique`,
`localized` and `ref` annotations, unwrap and classify the declared type,
resolve an explicit referenced column, check the closing type invariant,
and build the output column. -/
def parseFieldNode (ctx : Context) (tableName : String)
    (fieldNode : FieldDefinitionNode) : Except RError TableColumn :=
  match validateDirectives fieldNode.directives
    [DIRECTIVE_REF, DIRECTIVE_UNIQUE, DIRECTIVE_LOCALIZED, DIRECTIVE_FILE,
      DIRECTIVE_FILES_GROUP] with
  | .error e => .error e
  | .ok _ =>
    match referencesField fieldNode with
    | .error e => .error e
    | .ok refFieldName =>
      match unwrapType fieldNode with
      | .error e => .error e
      | .ok fieldType =>
        match classifyFieldType ctx tableName fieldNode fieldType with
        | .error e => .error e
        | .ok (fieldType, references) =>
          match resolveRefColumn ctx fieldNode refFieldName fieldType references with
          | .error e => .error e
          | .ok (fieldType, references) =>
            if ScalarTypes.contains fieldType.name ∨ fieldType.name = "array" ∨
                fieldType.name = "row" ∨ fieldType.name = "foreignrow" ∨
                fieldType.name = "enumrow" then
              match getFileExtension fieldNode with
              | .error e => .error e
              | .ok file =>
                match getFileGroupExtensions fieldNode with
                | .error e => .error e
                | .ok files =>
                  .ok { name := if fieldNode.name.value = "_" then none
                          else some fieldNode.name.value
                      , description := fieldNode.description
                      , array := fieldType.array
                      , type := fieldType.name
                      , unique := isUnique fieldNode
                      , localized := isLocalized fieldNode
                      , references := references
                      , until_ := none
                      , file := file
                      , files := files }
            else .error (.assertionError closingAssertInfo)

/-- The enumerator-collection loop of `parseEnumNode` (lines 297–309): `_`
pushes a null placeholder; any other name must not already be present in the
collected sequence (`Array.includes` compares with strict equality, so
placeholders never collide with names). -/
def collectEnumerators :
    List EnumValueDefinitionNode → List (Option String) →
    Except RError (List (Option String))
  | [], enumerators => .ok enumerators
  | valueNode :: rest, enumerators =>
    if valueNode.name.value = "_" then
      collectEnumerators rest (enumerators ++ [none])
    else if enumerators.contains (some valueNode.name.value) then
      .error (.graphQLError
        ("Duplicate enumerator \"" ++ valueNode.name.value ++ "\".")
        (.nameNode valueNode.name) none)
    else collectEnumerators rest (enumerators ++ [some valueNode.name.value])

/-- The final normalization of `parseEnumNode` (lines 311–316): a sequence
of exactly one null placeholder collapses to the empty sequence. -/
def finalizeEnumerators (enumerators : List (Option String)) : List (Option String) :=
  if enumerators.length = 1 ∧ enumerators.head? = some none then []
  else enumerators

/-- `parseEnumNode`: validate the enum's directives, require the `indexing`
directive, read its base, collect the enumerators and normalize them. -/
def parseEnumNode (enumNode : EnumTypeDefinitionNode) :
    Except RError SchemaEnumeration :=
  match validateDirectives enumNode.directives [DIRECTIVE_ENUM_INDEXING] with
  | .error e => .error e
  | .ok _ =>
    match findDirective enumNode.directives DIRECTIVE_ENUM_INDEXING.name with
    | none =>
      .error (.graphQLError "`indexing` directive is required for enums."
        (.enumNode enumNode) none)
    | some _ =>
      match getIndexingBase enumNode with
      | .error e => .error e
      | .ok indexing =>
        match enumNode.values with
        | none => .error (.assertionError "parseEnumNode: enumNode.values != null")
        | some values =>
          match collectEnumerators values [] with
          | .error e => .error e
          | .ok enumerators =>
            .ok { name := enumNode.name.value
                , indexing := indexing
                , enumerators := finalizeEnumerators enumerators }

/-- The symbol-table loop of `readSchemaSources` (lines 212–232): each
top-level definition is inserted into its kind's map, an already-present name
is a duplicate-definition error, and any other definition kind is rejected. -/
def insertDefs : List DefinitionNode → Context → Except RError Context
  | [], ctx => .ok ctx
  | d :: rest, ctx =>
    match d with
    | .enumTypeDefinition node =>
      if (lookupMap ctx.enumDefsMap node.name.value).isSome then
        .error (.graphQLError "Enum with this name has already been defined."
          (.nameNode node.name) none)
      else
        insertDefs rest
          { ctx with enumDefsMap := ctx.enumDefsMap ++ [(node.name.value, node)] }
    | .objectTypeDefinition node =>
      if (lookupMap ctx.typeDefsMap node.name.value).isSome then
        .error (.graphQLError "Table with this name has already been defined."
          (.nameNode node.name) none)
      else
        insertDefs rest
          { ctx with typeDefsMap := ctx.typeDefsMap ++ [(node.name.value, node)] }
    | .otherDefinition =>
      .error (.graphQLError "Unsupported definition." (.definitionNode d) none)

/-- The source loop of `readSchemaSources`: merge every document's
definitions into the symbol maps, in document order. -/
def buildContext : List (List DefinitionNode) → Context → Except RError Context
  | [], ctx => .ok ctx
  | doc :: rest, ctx =>
    match insertDefs doc ctx with
    | .error e => .error e
    | .ok ctx => buildContext rest ctx

/-- The column loop of a table (lines 247–262): resolve each field in order,
rejecting a duplicate non-null column name. -/
def parseColumns (ctx : Context) (tableName : String) :
    List FieldDefinitionNode → List TableColumn → Except RError (List TableColumn)
  | [], columns => .ok columns
  | fieldNode :: rest, columns =>
    match parseFieldNode ctx tableName fieldNode with
    | .error e => .error e
    | .ok column =>
      match column.name with
      | some n =>
        if columns.any (fun col => col.name == some n) then
          .error (.graphQLError ("Duplicate column name \"" ++ n ++ "\".")
            (.nameNode fieldNode.name) none)
        else parseColumns ctx tableName rest (columns ++ [column])
      | none => parseColumns ctx tableName rest (columns ++ [column])

/-- The per-table body of `readSchemaSources` (lines 237–264): validate the
table's directives, read its tags, and resolve its columns
(`assert.ok(typeNode.fields != null)`). -/
def parseTableNode (ctx : Context) (typeNode : ObjectTypeDefinitionNode) :
    Except RError SchemaTable :=
  match validateDirectives typeNode.directives [DIRECTIVE_TABLE_TAGS] with
  | .error e => .error e
  | .ok _ =>
    match getTags typeNode with
    | .error e => .error e
    | .ok tags =>
      match typeNode.fields with
      | none => .error (.assertionError "parseTableNode: typeNode.fields != null")
      | some fields =>
        match parseColumns ctx typeNode.name.value fields [] with
        | .error e => .error e
        | .ok columns =>
          .ok { name := typeNode.name.value, columns := columns, tags := tags }

/-- The table loop of `readSchemaSources`, over the type map in insertion
order. -/
def parseTables (ctx : Context) :
    List (String × ObjectTypeDefinitionNode) → Except RError (List SchemaTable)
  | [] => .ok []
  | (_, node) :: rest =>
    match parseTableNode ctx node with
    | .error e => .error e
    | .ok t =>
      match parseTables ctx rest with
      | .error e => .error e
      | .ok ts => .ok (t :: ts)

/-- The enumeration loop of `readSchemaSources`, over the enum map in
insertion order. -/
def parseEnums : List (String × EnumTypeDefinitionNode) →
    Except RError (List SchemaEnumeration)
  | [] => .ok []
  | (_, node) :: rest =>
    match parseEnumNode node with
    | .error e => .error e
    | .ok e =>
      match parseEnums rest with
      | .error e2 => .error e2
      | .ok es => .ok (e :: es)

/-- `readSchemaSources`: build the complete symbol maps from every document,
then resolve every table's columns and every enumeration against them. -/
def readSchemaSources (sources : List (List DefinitionNode)) :
    Except RError SchemaFilePart :=
  match buildContext sources { typeDefsMap := [], enumDefsMap := [] } with
  | .error e => .error e
  | .ok ctx =>
    match parseTables ctx ctx.typeDefsMap with
    | .error e => .error e
    | .ok tables =>
      match parseEnums ctx.enumDefsMap with
      | .error e => .error e
      | .ok enumerations =>
        .ok { tables := tables, enumerations := enumerations }

/-! ### Error-shape lemmas

Each component either succeeds, raises a user-facing `graphQLError`, or
raises a specific `assertionError`; these lemmas record which, and in
particular that none of them can produce the closing type-invariant
assertion of `parseFieldNode`. -/

/-- An error is user-facing: it is a `graphQLError`. -/
def isGraphQLError (e : RError) : Prop :=
  ∃ m nd oe, e = .graphQLError m nd oe

/-- An error is not the closing type-invariant assertion. -/
def notClosing (e : RError) : Prop :=
  e ≠ .assertionError closingAssertInfo

theorem isGraphQLError.notClosing {e : RError} (h : isGraphQLError e) : notClosing e := by
  obtain ⟨m, nd, oe, rfl⟩ := h
  intro hc
  exact RError.noConfusion hc

theorem validateRefArgs_error {args : List ArgumentNode} {e : RError}
    (h : validateRefArgs args = .error e) : isGraphQLError e := by
  induction args with
  | nil => simp [validateRefArgs] at h
  | cons a rest ih =>
    rw [validateRefArgs] at h
    split at h
    · split at h
      · exact ih h
      · exact ⟨_, _, _, (Except.error.inj h).symm⟩
    · exact ⟨_, _, _, (Except.error.inj h).symm⟩

theorem validateRef_error {d : DirectiveNode} {e : RError}
    (h : validateRef d = .error e) : isGraphQLError e := by
  rw [validateRef] at h
  split at h
  · exact ⟨_, _, _, (Except.error.inj h).symm⟩
  · exact validateRefArgs_error h

theorem validateNoArguments_error {d : DirectiveNode} {e : RError}
    (h : validateNoArguments d = .error e) : isGraphQLError e := by
  rw [validateNoArguments] at h
  split at h
  · exact ⟨_, _, _, (Except.error.inj h).symm⟩
  · simp at h

theorem validateFileArgs_error {args : List ArgumentNode} {e : RError}
    (h : validateFileArgs args = .error e) : isGraphQLError e := by
  induction args with
  | nil => simp [validateFileArgs] at h
  | cons a rest ih =>
    rw [validateFileArgs] at h
    split at h
    · split at h
      · exact ih h
      · exact ⟨_, _, _, (Except.error.inj h).symm⟩
    · exact ⟨_, _, _, (Except.error.inj h).symm⟩

theorem validateFile_error {d : DirectiveNode} {e : RError}
    (h : validateFile d = .error e) : isGraphQLError e := by
  rw [validateFile] at h
  split at h
  · exact ⟨_, _, _, (Except.error.inj h).symm⟩
  · exact validateFileArgs_error h

theorem checkStringListValues_error {values : List ValueNode} {e : RError}
    (h : checkStringListValues values = .error e) : isGraphQLError e := by
  induction values with
  | nil => simp [checkStringListValues] at h
  | cons v rest ih =>
    cases v with
    | stringValue s => rw [checkStringListValues] at h; exact ih h
    | intValue n => exact ⟨_, _, _, (Except.error.inj h).symm⟩
    | listValue vs => exact ⟨_, _, _, (Except.error.inj h).symm⟩
    | otherValue => exact ⟨_, _, _, (Except.error.inj h).symm⟩

theorem validateFilesGroupArgs_error {args : List ArgumentNode} {e : RError}
    (h : validateFilesGroupArgs args = .error e) : isGraphQLError e := by
  induction args with
  | nil => simp [validateFilesGroupArgs] at h
  | cons a rest ih =>
    rw [validateFilesGroupArgs] at h
    split at h
    · split at h
      · split at h
        · rename_i heq
          exact (Except.error.inj h) ▸ checkStringListValues_error heq
        · exact ih h
      · exact ⟨_, _, _, (Except.error.inj h).symm⟩
    · exact ⟨_, _, _, (Except.error.inj h).symm⟩

theorem validateFilesGroup_error {d : DirectiveNode} {e : RError}
    (h : validateFilesGroup d = .error e) : isGraphQLError e := by
  rw [validateFilesGroup] at h
  split at h
  · exact ⟨_, _, _, (Except.error.inj h).symm⟩
  · exact validateFilesGroupArgs_error h

theorem validateIndexingArgs_error {args : List ArgumentNode} {e : RError}
    (h : validateIndexingArgs args = .error e) : isGraphQLError e := by
  induction args with
  | nil => simp [validateIndexingArgs] at h
  | cons a rest ih =>
    rw [validateIndexingArgs] at h
    split at h
    · split at h
      · split at h
        · exact ⟨_, _, _, (Except.error.inj h).symm⟩
        · exact ih h
      · exact ⟨_, _, _, (Except.error.inj h).symm⟩
    · exact ⟨_, _, _, (Except.error.inj h).symm⟩

theorem validateIndexing_error {d : DirectiveNode} {e : RError}
    (h : validateIndexing d = .error e) : isGraphQLError e := by
  rw [validateIndexing] at h
  split at h
  · exact ⟨_, _, _, (Except.error.inj h).symm⟩
  · exact validateIndexingArgs_error h

theorem validateTagsArgs_error {args : List ArgumentNode} {e : RError}
    (h : validateTagsArgs args = .error e) : isGraphQLError e := by
  induction args with
  | nil => simp [validateTagsArgs] at h
  | cons a rest ih =>
    rw [validateTagsArgs] at h
    split at h
    · split at h
      · split at h
        · exact ⟨_, _, _, (Except.error.inj h).symm⟩
        · split at h
          · rename_i heq
            exact (Except.error.inj h) ▸ checkStringListValues_error heq
          · exact ih h
      · exact ⟨_, _, _, (Except.error.inj h).symm⟩
    · exact ⟨_, _, _, (Except.error.inj h).symm⟩

theorem validateTags_error {d : DirectiveNode} {e : RError}
    (h : validateTags d = .error e) : isGraphQLError e := by
  rw [validateTags] at h
  split at h
  · exact ⟨_, _, _, (Except.error.inj h).symm⟩
  · exact validateTagsArgs_error h

theorem validateDirectivesList_error {specs : List DirectiveSpec}
    (hspecs : ∀ spec ∈ specs, ∀ d e, spec.validate d = .error e → isGraphQLError e)
    {ds : List DirectiveNode} {e : RError}
    (h : validateDirectivesList specs ds = .error e) : isGraphQLError e := by
  induction ds with
  | nil => simp [validateDirectivesList] at h
  | cons d rest ih =>
    rw [validateDirectivesList] at h
    split at h
    · rename_i spec hfind
      split at h
      · rename_i heq
        exact (Except.error.inj h) ▸
          hspecs spec (List.mem_of_find?_eq_some hfind) d _ heq
      · exact ih h
    · exact ⟨_, _, _, (Except.error.inj h).symm⟩

/-- Every directive specification appearing in the reader raises only
user-facing errors from its validation routine. -/
theorem allSpecs_graphQL :
    ∀ spec ∈ [DIRECTIVE_REF, DIRECTIVE_UNIQUE, DIRECTIVE_LOCALIZED,
      DIRECTIVE_FILE, DIRECTIVE_FILES_GROUP, DIRECTIVE_ENUM_INDEXING,
      DIRECTIVE_TABLE_TAGS],
      ∀ d e, spec.validate d = .error e → isGraphQLError e := by
  intro spec hmem d e h
  simp only [List.mem_cons, List.not_mem_nil, or_false] at hmem
  rcases hmem with rfl | rfl | rfl | rfl | rfl | rfl | rfl
  · exact validateRef_error h
  · exact validateNoArguments_error h
  · exact validateNoArguments_error h
  · exact validateFile_error h
  · exact validateFilesGroup_error h
  · exact validateIndexing_error h
  · exact validateTags_error h

theorem validateDirectives_field_error {dirs : Option (List DirectiveNode)} {e : RError}
    (h : validateDirectives dirs
      [DIRECTIVE_REF, DIRECTIVE_UNIQUE, DIRECTIVE_LOCALIZED, DIRECTIVE_FILE,
        DIRECTIVE_FILES_GROUP] = .error e) : isGraphQLError e := by
  refine validateDirectivesList_error ?_ h
  intro spec hmem d e' h'
  refine allSpecs_graphQL spec ?_ d e' h'
  simp only [List.mem_cons, List.not_mem_nil, or_false] at hmem ⊢
  tauto

theorem referencesField_error {f : FieldDefinitionNode} {e : RError}
    (h : referencesField f = .error e) :
    e = .assertionError "referencesField: args shape" := by
  rw [referencesField] at h
  split at h
  · simp at h
  · split at h
    · split at h
      · split at h
        · simp at h
        · exact (Except.error.inj h).symm
      · exact (Except.error.inj h).symm
    · exact (Except.error.inj h).symm

theorem unwrapType_error {f : FieldDefinitionNode} {e : RError}
    (h : unwrapType f = .error e) : isGraphQLError e := by
  rw [unwrapType] at h
  split at h
  · split at h
    · exact ⟨_, _, _, (Except.error.inj h).symm⟩
    · simp at h
  · exact ⟨_, _, _, (Except.error.inj h).symm⟩

theorem classifyFieldType_error {ctx : Context} {tn : String}
    {f : FieldDefinitionNode} {ti : TypeInfo} {e : RError}
    (h : classifyFieldType ctx tn f ti = .error e) : isGraphQLError e := by
  rw [classifyFieldType] at h
  split at h
  · simp at h
  · split at h
    · simp at h
    · split at h
      · simp at h
      · split at h
        · split at h
          · simp at h
          · split at h
            · simp at h
            · exact ⟨_, _, _, (Except.error.inj h).symm⟩
        · simp at h

theorem getFileExtension_error {f : FieldDefinitionNode} {e : RError}
    (h : getFileExtension f = .error e) :
    e = .assertionError "getFileExtension: args shape" := by
  rw [getFileExtension] at h
  split at h
  · simp at h
  · split at h
    · split at h
      · split at h
        · simp at h
        · exact (Except.error.inj h).symm
      · exact (Except.error.inj h).symm
    · exact (Except.error.inj h).symm

theorem assertStringValues_error {info : String} :
    ∀ {values : List ValueNode} {e : RError},
      assertStringValues info values = .error e → e = .assertionError info
  | [], e, h => by simp [assertStringValues] at h
  | .stringValue s :: rest, e, h => by
    rw [assertStringValues] at h
    split at h
    · rename_i e' heq
      rw [Except.error.inj h] at heq
      exact assertStringValues_error heq
    · simp at h
  | .intValue n :: rest, e, h => (Except.error.inj h).symm
  | .listValue vs :: rest, e, h => (Except.error.inj h).symm
  | .otherValue :: rest, e, h => (Except.error.inj h).symm

theorem getFileGroupExtensions_error {f : FieldDefinitionNode} {e : RError}
    (h : getFileGroupExtensions f = .error e) :
    e = .assertionError "getFileGroupExtensions: string element" ∨
    e = .assertionError "getFileGroupExtensions: args shape" := by
  rw [getFileGroupExtensions] at h
  split at h
  · simp at h
  · split at h
    · split at h
      · split at h
        · split at h
          · rename_i heq
            exact Or.inl ((Except.error.inj h) ▸ assertStringValues_error heq)
          · simp at h
        · exact Or.inr (Except.error.inj h).symm
      · exact Or.inr (Except.error.inj h).symm
    · exact Or.inr (Except.error.inj h).symm

theorem assertionError_ne {a b : String} (h : a ≠ b) :
    RError.assertionError a ≠ RError.assertionError b := by
  intro hc
  exact h (RError.assertionError.inj hc)

theorem findReferencedField_error {tn : ObjectTypeDefinitionNode} {x : String} {e : RError}
    (h : findReferencedField tn x = .error e) : notClosing e := by
  rw [findReferencedField] at h
  split at h
  · rw [← Except.error.inj h]
    exact assertionError_ne (by decide)
  · split at h
    · simp at h
    · split at h
      · rename_i e' heq
        rw [Except.error.inj h] at heq
        exact isGraphQLError.notClosing (unwrapType_error heq)
      · split at h
        · exact isGraphQLError.notClosing ⟨_, _, _, (Except.error.inj h).symm⟩
        · split at h
          · exact isGraphQLError.notClosing ⟨_, _, _, (Except.error.inj h).symm⟩
          · split at h
            · exact isGraphQLError.notClosing ⟨_, _, _, (Except.error.inj h).symm⟩
            · simp at h

theorem resolveRefColumn_error {ctx : Context} {f : FieldDefinitionNode}
    {rn : Option String} {ti : TypeInfo} {r : Option Refs} {e : RError}
    (h : resolveRefColumn ctx f rn ti r = .error e) : notClosing e := by
  rw [resolveRefColumn.eq_def] at h
  split at h
  · simp at h
  · split at h
    · simp at h
    · split at h
      · rw [← Except.error.inj h]
        exact assertionError_ne (by decide)
      · split at h
        · rw [← Except.error.inj h]
          exact assertionError_ne (by decide)
        · split at h
          · rw [← Except.error.inj h]
            exact assertionError_ne (by decide)
          · split at h
            · exact isGraphQLError.notClosing ⟨_, _, _, (Except.error.inj h).symm⟩
            · split at h
              · exact isGraphQLError.notClosing ⟨_, _, _, (Except.error.inj h).symm⟩
              · split at h
                · exact isGraphQLError.notClosing ⟨_, _, _, (Except.error.inj h).symm⟩
                · simp at h

/-! ### Success-shape lemmas -/

/-- The nine closed column type values. -/
def closedColumnTypes : List String :=
  ["bool", "string", "i16", "i32", "f32", "row", "foreignrow", "enumrow", "array"]

/-- The closing type invariant checked by `parseFieldNode`'s final assert. -/
def allowedTypeName (name : String) : Prop :=
  ScalarTypes.contains name ∨ name = "array" ∨ name = "row" ∨
    name = "foreignrow" ∨ name = "enumrow"

theorem scalarTypes_contains_iff {name : String} :
    ScalarTypes.contains name = true ↔
      name = "bool" ∨ name = "string" ∨ name = "i16" ∨ name = "i32" ∨ name = "f32" := by
  simp [ScalarTypes, List.contains, List.elem_iff]

theorem scalarTypes_mem_iff {name : String} :
    name ∈ ScalarTypes ↔ ScalarTypes.contains name = true := by
  simp [List.contains, List.elem_iff]

theorem allowedTypeName_mem_closed {name : String} (h : allowedTypeName name) :
    name ∈ closedColumnTypes := by
  rcases h with h | h | h | h | h
  · rcases scalarTypes_contains_iff.mp h with rfl | rfl | rfl | rfl | rfl <;>
      simp [closedColumnTypes]
  all_goals subst h; simp [closedColumnTypes]

theorem scalar_ne_empty {t : String} (h : ScalarTypes.contains t = true) : t ≠ "" := by
  rcases scalarTypes_contains_iff.mp h with rfl | rfl | rfl | rfl | rfl <;> decide

theorem classifyFieldType_ok {ctx : Context} {tn : String} {f : FieldDefinitionNode}
    {ti ti' : TypeInfo} {r : Option Refs}
    (h : classifyFieldType ctx tn f ti = .ok (ti', r)) :
    allowedTypeName ti'.name ∧ ti'.array = ti.array := by
  rw [classifyFieldType] at h
  split at h
  · obtain ⟨h1, h2⟩ := Prod.mk.injEq .. ▸ Except.ok.inj h
    subst h1
    exact ⟨Or.inr (Or.inr (Or.inl rfl)), rfl⟩
  · split at h
    · obtain ⟨h1, h2⟩ := Prod.mk.injEq .. ▸ Except.ok.inj h
      subst h1
      exact ⟨Or.inr (Or.inr (Or.inr (Or.inl rfl))), rfl⟩
    · split at h
      · obtain ⟨h1, h2⟩ := Prod.mk.injEq .. ▸ Except.ok.inj h
        subst h1
        exact ⟨Or.inr (Or.inl rfl), rfl⟩
      · split at h
        · split at h
          · obtain ⟨h1, h2⟩ := Prod.mk.injEq .. ▸ Except.ok.inj h
            subst h1
            exact ⟨Or.inr (Or.inr (Or.inr (Or.inl rfl))), rfl⟩
          · split at h
            · obtain ⟨h1, h2⟩ := Prod.mk.injEq .. ▸ Except.ok.inj h
              subst h1
              exact ⟨Or.inr (Or.inr (Or.inr (Or.inr rfl))), rfl⟩
            · simp at h
        · rename_i hsc
          obtain ⟨h1, h2⟩ := Prod.mk.injEq .. ▸ Except.ok.inj h
          subst h1
          rw [not_not] at hsc
          exact ⟨Or.inl hsc, rfl⟩

theorem findReferencedField_ok_some {tn : ObjectTypeDefinitionNode} {x t : String}
    (h : findReferencedField tn x = .ok (some t)) : ScalarTypes.contains t = true := by
  rw [findReferencedField] at h
  split at h
  · simp at h
  · split at h
    · simp at h
    · split at h
      · simp at h
      · split at h
        · simp at h
        · split at h
          · simp at h
          · split at h
            · simp at h
            · rename_i hns
              rw [not_not] at hns
              rw [Option.some.inj (Except.ok.inj h)] at hns
              exact hns

theorem resolveRefColumn_ok {ctx : Context} {f : FieldDefinitionNode}
    {rn : Option String} {ti : TypeInfo} {r : Option Refs} {ti2 : TypeInfo}
    {r2 : Option Refs} (h : resolveRefColumn ctx f rn ti r = .ok (ti2, r2)) :
    ti2.array = ti.array ∧ (ti2.name = ti.name ∨ ScalarTypes.contains ti2.name = true) := by
  rw [resolveRefColumn.eq_def] at h
  split at h
  · obtain ⟨h1, h2⟩ := Prod.mk.injEq .. ▸ Except.ok.inj h
    subst h1
    exact ⟨rfl, Or.inl rfl⟩
  · split at h
    · obtain ⟨h1, h2⟩ := Prod.mk.injEq .. ▸ Except.ok.inj h
      subst h1
      exact ⟨rfl, Or.inl rfl⟩
    · split at h
      · simp at h
      · split at h
        · simp at h
        · split at h
          · simp at h
          · split at h
            · simp at h
            · rename_i rft hfr
              split at h
              · simp at h
              · rename_i t
                split at h
                · simp at h
                · obtain ⟨h1, h2⟩ := Prod.mk.injEq .. ▸ Except.ok.inj h
                  subst h1
                  exact ⟨rfl, Or.inr (findReferencedField_ok_some hfr)⟩

/-- Inversion of a successful `parseFieldNode`: the intermediate results of
every stage, and the exact shape of the produced column. -/
theorem parseFieldNode_ok_inv {ctx : Context} {tn : String}
    {f : FieldDefinitionNode} {col : TableColumn}
    (h : parseFieldNode ctx tn f = .ok col) :
    ∃ refName ti0 ti1 r1 ti2 r2 file files,
      referencesField f = .ok refName ∧
      unwrapType f = .ok ti0 ∧
      classifyFieldType ctx tn f ti0 = .ok (ti1, r1) ∧
      resolveRefColumn ctx f refName ti1 r1 = .ok (ti2, r2) ∧
      allowedTypeName ti2.name ∧
      getFileExtension f = .ok file ∧
      getFileGroupExtensions f = .ok files ∧
      col = { name := if f.name.value = "_" then none else some f.name.value
            , description := f.description
            , array := ti2.array
            , type := ti2.name
            , unique := isUnique f
            , localized := isLocalized f
            , references := r2
            , until_ := none
            , file := file
            , files := files } := by
  rw [parseFieldNode] at h
  split at h
  · simp at h
  · split at h
    · simp at h
    · rename_i refName href
      split at h
      · simp at h
      · rename_i ti0 hti0
        split at h
        · simp at h
        · rename_i ti1 r1 hcls
          split at h
          · simp at h
          · rename_i ti2 r2 hres
            split at h
            · rename_i hcond
              split at h
              · simp at h
              · rename_i file hfile
                split at h
                · simp at h
                · rename_i files hfiles
                  exact ⟨refName, ti0, ti1, r1, ti2, r2, file, files,
                    href, hti0, hcls, hres, hcond, hfile, hfiles,
                    (Except.ok.inj h).symm⟩
            · simp at h

/-- The closing type-invariant assertion of `parseFieldNode` can never fire:
no input makes `parseFieldNode` return that assertion failure. -/
theorem parseFieldNode_no_closing_assert (ctx : Context) (tn : String)
    (f : FieldDefinitionNode) :
    parseFieldNode ctx tn f ≠ .error (.assertionError closingAssertInfo) := by
  intro h
  rw [parseFieldNode] at h
  split at h
  · rename_i heq
    rw [Except.error.inj h] at heq
    exact isGraphQLError.notClosing (validateDirectives_field_error heq) rfl
  · split at h
    · rename_i heq
      rw [Except.error.inj h] at heq
      exact absurd (RError.assertionError.inj (referencesField_error heq)) (by decide)
    · split at h
      · rename_i heq
        rw [Except.error.inj h] at heq
        exact isGraphQLError.notClosing (unwrapType_error heq) rfl
      · split at h
        · rename_i heq
          rw [Except.error.inj h] at heq
          exact isGraphQLError.notClosing (classifyFieldType_error heq) rfl
        · rename_i p hcls
          split at h
          · rename_i heq
            rw [Except.error.inj h] at heq
            exact resolveRefColumn_error heq rfl
          · rename_i p2 hres
            split at h
            · split at h
              · rename_i heq
                rw [Except.error.inj h] at heq
                exact absurd (RError.assertionError.inj (getFileExtension_error heq))
                  (by decide)
              · split at h
                · rename_i heq
                  rw [Except.error.inj h] at heq
                  rcases getFileGroupExtensions_error heq with hg | hg <;>
                    exact absurd (RError.assertionError.inj hg) (by decide)
                · simp at h
            · rename_i hcond
              obtain ⟨harr, hname⟩ := resolveRefColumn_ok hres
              obtain ⟨hallow, _⟩ := classifyFieldType_ok hcls
              rcases hname with he | hsc
              · rw [he] at hcond
                exact hcond hallow
              · exact hcond (Or.inl hsc)

theorem parseColumns_mem {ctx : Context} {tn : String} :
    ∀ {fields : List FieldDefinitionNode} {acc out : List TableColumn},
      parseColumns ctx tn fields acc = .ok out →
      ∀ c ∈ out, c ∈ acc ∨ ∃ f, parseFieldNode ctx tn f = .ok c
  | [], acc, out, h, c, hc => by
    rw [parseColumns] at h
    rw [← Except.ok.inj h] at hc
    exact Or.inl hc
  | fld :: rest, acc, out, h, c, hc => by
    rw [parseColumns] at h
    split at h
    · simp at h
    · rename_i column hcol
      split at h
      · rename_i n hname
        split at h
        · simp at h
        · rcases parseColumns_mem h c hc with hmem | hex
          · rcases List.mem_append.mp hmem with h1 | h2
            · exact Or.inl h1
            · rw [List.mem_singleton.mp h2]
              exact Or.inr ⟨fld, hcol⟩
          · exact Or.inr hex
      · rcases parseColumns_mem h c hc with hmem | hex
        · rcases List.mem_append.mp hmem with h1 | h2
          · exact Or.inl h1
          · rw [List.mem_singleton.mp h2]
            exact Or.inr ⟨fld, hcol⟩
        · exact Or.inr hex

theorem parseTableNode_columns {ctx : Context} {node : ObjectTypeDefinitionNode}
    {t : SchemaTable} (h : parseTableNode ctx node = .ok t) :
    ∀ c ∈ t.columns, ∃ f, parseFieldNode ctx node.name.value f = .ok c := by
  rw [parseTableNode] at h
  split at h
  · simp at h
  · split at h
    · simp at h
    · split at h
      · simp at h
      · split at h
        · simp at h
        · rename_i cols hcols
          intro c hc
          rw [← Except.ok.inj h] at hc
          rcases parseColumns_mem hcols c hc with hmem | hex
          · simp at hmem
          · exact hex

theorem parseTables_mem {ctx : Context} :
    ∀ {entries : List (String × ObjectTypeDefinitionNode)} {ts : List SchemaTable},
      parseTables ctx entries = .ok ts →
      ∀ t ∈ ts, ∃ node, parseTableNode ctx node = .ok t
  | [], ts, h, t, ht => by
    rw [parseTables] at h
    rw [← Except.ok.inj h] at ht
    simp at ht
  | (k, node) :: rest, ts, h, t, ht => by
    rw [parseTables] at h
    split at h
    · simp at h
    · rename_i t1 ht1
      split at h
      · simp at h
      · rename_i ts1 hts1
        rw [← Except.ok.inj h] at ht
        rcases List.mem_cons.mp ht with rfl | hmem
        · exact ⟨node, ht1⟩
        · exact parseTables_mem hts1 t hmem

theorem readSchemaSources_tables {sources : List (List DefinitionNode)}
    {out : SchemaFilePart} (h : readSchemaSources sources = .ok out) :
    ∃ ctx, ∀ t ∈ out.tables, ∃ node, parseTableNode ctx node = .ok t := by
  rw [readSchemaSources] at h
  split at h
  · simp at h
  · rename_i ctx hctx
    split at h
    · simp at h
    · rename_i tables htables
      split at h
      · simp at h
      · rename_i enums henums
        refine ⟨ctx, ?_⟩
        intro t ht
        rw [← Except.ok.inj h] at ht
        exact parseTables_mem htables t ht

theorem parseFieldNode_ok_type_mem {ctx : Context} {tn : String}
    {f : FieldDefinitionNode} {col : TableColumn}
    (h : parseFieldNode ctx tn f = .ok col) : col.type ∈ closedColumnTypes := by
  obtain ⟨rn, ti0, ti1, r1, ti2, r2, file, files, _, _, _, _, hallow, _, _, hcol⟩ :=
    parseFieldNode_ok_inv h
  rw [hcol]
  exact allowedTypeName_mem_closed hallow

theorem parseFieldNode_ok_array {ctx : Context} {tn : String}
    {f : FieldDefinitionNode} {col : TableColumn} {ti : TypeInfo}
    (h : parseFieldNode ctx tn f = .ok col) (hti : unwrapType f = .ok ti) :
    col.array = ti.array := by
  obtain ⟨rn, ti0, ti1, r1, ti2, r2, file, files, _, hti0, hcls, hres, _, _, _, hcol⟩ :=
    parseFieldNode_ok_inv h
  rw [hcol]
  have h0 : ti0 = ti := Except.ok.inj (hti0 ▸ hti)
  obtain ⟨ha2, _⟩ := resolveRefColumn_ok hres
  obtain ⟨_, ha1⟩ := classifyFieldType_ok hcls
  rw [ha2, ha1, h0]

/-! ### Concrete example inputs shared by witnesses and counterexamples -/

/-- A `@ref(column: c)` directive. -/
def refDirective (c : String) : DirectiveNode :=
  { name := { value := "ref" }
  , arguments := some [{ name := { value := "column" }, value := .stringValue c }] }

/-- A `@unique` directive. -/
def uniqueDirective : DirectiveNode := { name := { value := "unique" }, arguments := none }

/-- An `@indexing(first: n)` directive. -/
def indexingDirective (n : Int) : DirectiveNode :=
  { name := { value := "indexing" }
  , arguments := some [{ name := { value := "first" }, value := .intValue n }] }

/-- Target table `T` of the reference examples: column `x: i32 @unique`
(valid target), `arr: [i32] @unique` (array-typed), `nu: i32` (not unique),
`ns: Other @unique` (non-scalar). -/
def exTableT : ObjectTypeDefinitionNode :=
  { name := { value := "T" }
  , directives := none
  , fields := some
      [ { name := { value := "x" }, description := none
        , type := .namedType { value := "i32" }, directives := some [uniqueDirective] }
      , { name := { value := "arr" }, description := none
        , type := .listType (.namedType { value := "i32" })
        , directives := some [uniqueDirective] }
      , { name := { value := "nu" }, description := none
        , type := .namedType { value := "i32" }, directives := none }
      , { name := { value := "ns" }, description := none
        , type := .namedType { value := "Other" }
        , directives := some [uniqueDirective] } ] }

/-- A context declaring only the target table `T`. -/
def exCtxT : Context := { typeDefsMap := [("T", exTableT)], enumDefsMap := [] }

/-- A referencing field `f: T @ref(column: c)`. -/
def exRefField (c : String) : FieldDefinitionNode :=
  { name := { value := "f" }, description := none
  , type := .namedType { value := "T" }, directives := some [refDirective c] }

/-- Document defining table `A` with the single field `x: B`. -/
def exDocA : List DefinitionNode :=
  [.objectTypeDefinition
    { name := { value := "A" }
    , directives := none
    , fields := some
        [ { name := { value := "x" }, description := none
          , type := .namedType { value := "B" }, directives := none } ] }]

/-- Document defining table `B` with the single field `y: bool`. -/
def exDocB : List DefinitionNode :=
  [.objectTypeDefinition
    { name := { value := "B" }
    , directives := none
    , fields := some
        [ { name := { value := "y" }, description := none
          , type := .namedType { value := "bool" }, directives := none } ] }]

/-- The two documents, `A` first. -/
def exDocs : List (List DefinitionNode) := [exDocA, exDocB]

/-- The resolved column `x: foreignrow → B`. -/
def exColX : TableColumn :=
  { name := some "x", description := none, array := false, type := "foreignrow"
  , unique := false, localized := false, references := some { table := "B" }
  , until_ := none, file := none, files := none }

/-- The resolved column `y: bool`. -/
def exColY : TableColumn :=
  { name := some "y", description := none, array := false, type := "bool"
  , unique := false, localized := false, references := none
  , until_ := none, file := none, files := none }

/-- The resolved table `A`. -/
def exTblA : SchemaTable := { name := "A", columns := [exColX], tags := [] }

/-- The resolved table `B`. -/
def exTblB : SchemaTable := { name := "B", columns := [exColY], tags := [] }

/-- The output of `readSchemaSources exDocs`. -/
def exOutAB : SchemaFilePart := { tables := [exTblA, exTblB], enumerations := [] }

/-! ### Further helper lemmas -/

theorem unwrapType_underscore_array {f : FieldDefinitionNode} {ti : TypeInfo}
    (h : unwrapType f = .ok ti) (hn : ti.name = "_") : ti.array = true := by
  rw [unwrapType] at h
  split at h
  · split at h
    · simp at h
    · rename_i hcond
      rw [← Except.ok.inj h] at hn ⊢
      simp only [] at hn ⊢
      rcases Bool.eq_false_or_eq_true _ with harr | harr
      · exact harr
      · exact absurd ⟨hn, harr⟩ hcond
  · simp at h

theorem unwrapType_bare_underscore {f : FieldDefinitionNode} {n : NameNode}
    (ht : f.type = .namedType n) (hn : n.value = "_") :
    unwrapType f =
      .error (.graphQLError "Unknown type is only allowed inside an array."
        (.typeNode f.type) none) := by
  simp [unwrapType, ht, hn]

theorem resolveRefColumn_none_refs_ok {ctx : Context} {f : FieldDefinitionNode}
    {rn : Option String} {ti ti2 : TypeInfo} {r2 : Option Refs}
    (h : resolveRefColumn ctx f rn ti none = .ok (ti2, r2)) :
    ti2 = ti ∧ r2 = none := by
  cases rn with
  | none =>
    rw [resolveRefColumn] at h
    obtain ⟨h1, h2⟩ := Prod.mk.injEq .. ▸ Except.ok.inj h
    exact ⟨h1.symm, h2.symm⟩
  | some s =>
    rw [resolveRefColumn] at h
    split at h
    · obtain ⟨h1, h2⟩ := Prod.mk.injEq .. ▸ Except.ok.inj h
      exact ⟨h1.symm, h2.symm⟩
    · simp at h

theorem resolveRefColumn_some_ok_inv {ctx : Context} {f : FieldDefinitionNode}
    {x : String} {ti : TypeInfo} {r : Option Refs} {ti2 : TypeInfo} {r2 : Option Refs}
    (hx : x ≠ "") (h : resolveRefColumn ctx f (some x) ti r = .ok (ti2, r2)) :
    ∃ refs tgt t, r = some refs ∧ lookupMap ctx.typeDefsMap refs.table = some tgt ∧
      findReferencedField tgt x = .ok (some t) ∧
      ti2 = { ti with name := t } ∧ r2 = some { refs with column := some x } := by
  rw [resolveRefColumn.eq_def] at h
  simp only [if_neg hx] at h
  split at h
  · simp at h
  · rename_i refs
    split at h
    · simp at h
    · split at h
      · simp at h
      · rename_i tgt hlk
        split at h
        · simp at h
        · rename_i rft hfr
          split at h
          · simp at h
          · rename_i t
            split at h
            · simp at h
            · obtain ⟨h1, h2⟩ := Prod.mk.injEq .. ▸ Except.ok.inj h
              exact ⟨refs, tgt, t, rfl, hlk, hfr, h1.symm, h2.symm⟩

/-! ### Claim C4 -/

/-- C4: for every successful run of `readSchemaSources`, every column of
every returned table has a type among the nine closed values
`bool,string,i16,i32,f32,row,foreignrow,enumrow,array`; the closing
assertion of this invariant can never fire (no input makes `parseFieldNode`
return that assertion failure); and the column's `array` flag always equals
the list-wrapping flag computed by `unwrapType`, independently of the
computed type. -/
theorem C4_closed_column_types :
    (∀ sources out, readSchemaSources sources = .ok out →
      ∀ t ∈ out.tables, ∀ c ∈ t.columns, c.type ∈ closedColumnTypes) ∧
    (∀ ctx tn f, parseFieldNode ctx tn f ≠ .error (.assertionError closingAssertInfo)) ∧
    (∀ ctx tn f col ti, parseFieldNode ctx tn f = .ok col → unwrapType f = .ok ti →
      col.array = ti.array) := by
  refine ⟨?_, parseFieldNode_no_closing_assert, ?_⟩
  · intro sources out h t ht c hc
    obtain ⟨ctx, htab⟩ := readSchemaSources_tables h
    obtain ⟨node, hnode⟩ := htab t ht
    obtain ⟨f, hf⟩ := parseTableNode_columns hnode c hc
    exact parseFieldNode_ok_type_mem hf
  · intro ctx tn f col ti h hti
    exact parseFieldNode_ok_array h hti

theorem C4_witness : exColX.type ∈ closedColumnTypes :=
  C4_closed_column_types.1 exDocs exOutAB rfl exTblA (by simp [exOutAB]) exColX
    (by simp [exTblA])

/-! ### Claim C5 -/

/-- A field `s: i32` used as its own table's self reference when the table
is itself named `i32`. -/
def exSelfField : FieldDefinitionNode :=
  { name := { value := "s" }, description := none
  , type := .namedType { value := "i32" }, directives := none }

/-- The resolved self-reference column of `exSelfField` in table `i32`. -/
def exSelfColumn : TableColumn :=
  { name := some "s", description := none, array := false, type := "row"
  , unique := false, localized := false
  , references := some { table := "i32" }
  , until_ := none, file := none, files := none }

/-- C5: a field whose unwrapped base name equals the enclosing table's own
name always classifies as a self reference (`type = row`,
`references = {table := tn}`), before every other classification — even when
the table name coincides with a scalar name or `rid`; and any column
resolved from such a field (without a `ref` annotation) has `type = "row"`
and `references = some {table := tn, column := none}`. -/
theorem C5_self_reference :
    (∀ ctx tn f ti, ti.name = tn →
      classifyFieldType ctx tn f ti =
        .ok ({ ti with name := "row" }, some { table := tn })) ∧
    (∀ ctx tn f ti col, unwrapType f = .ok ti → ti.name = tn →
      referencesField f = .ok none → parseFieldNode ctx tn f = .ok col →
      col.type = "row" ∧ col.references = some { table := tn, column := none }) := by
  constructor
  · intro ctx tn f ti h
    rw [classifyFieldType, if_pos h]
  · intro ctx tn f ti col hti hname href h
    obtain ⟨rn, ti0, ti1, r1, ti2, r2, file, files, href', hti0, hcls, hres, _, _, _, hcol⟩ :=
      parseFieldNode_ok_inv h
    have hrn : rn = none := Except.ok.inj (href' ▸ href)
    have hti0' : ti0 = ti := Except.ok.inj (hti0 ▸ hti)
    subst hrn
    subst hti0'
    rw [classifyFieldType, if_pos hname] at hcls
    obtain ⟨h1, h2⟩ := Prod.mk.injEq .. ▸ Except.ok.inj hcls
    rw [resolveRefColumn] at hres
    obtain ⟨h3, h4⟩ := Prod.mk.injEq .. ▸ Except.ok.inj hres
    rw [hcol]
    refine ⟨?_, ?_⟩
    · show ti2.name = "row"
      rw [← h3, ← h1]
    · show r2 = some { table := tn, column := none }
      rw [← h4, ← h2]

theorem C5_witness :
    exSelfColumn.type = "row" ∧
      exSelfColumn.references = some { table := "i32", column := none } :=
  C5_self_reference.2 { typeDefsMap := [], enumDefsMap := [] } "i32" exSelfField
    { array := false, name := "i32" } exSelfColumn rfl rfl rfl rfl

/-! ### Claim C7 -/

/-- A field `g: [_] @ref(column: "x")`: list-wrapped placeholder type with a
`ref` annotation. -/
def exArrRefField : FieldDefinitionNode :=
  { name := { value := "g" }, description := none
  , type := .listType (.namedType { value := "_" })
  , directives := some [refDirective "x"] }

/-- C7 counterexample: a field declared with the list-wrapped placeholder
type `[_]` does NOT always yield a column of type `array` — with a `ref`
annotation attached, resolution instead hits the `references?.table`
internal assertion and no column is produced. -/
theorem C7_counterexample :
    unwrapType exArrRefField = .ok { array := true, name := "_" } ∧
    parseFieldNode { typeDefsMap := [], enumDefsMap := [] } "Tbl" exArrRefField =
      .error (.assertionError "references?.table") :=
  ⟨rfl, rfl⟩

/-- C7 (amended): a field typed `[_]`, in a table not itself named `_`,
yields `type = array` and `array = true` whenever a column is produced (a
`ref` annotation can instead abort on an internal assertion, and in a table
named `_` the self-name rule wins); a field typed bare `_` never yields a
column, and when its annotations validate and the `ref` lookup succeeds it
fails with exactly the placeholder-type error. -/
theorem C7_placeholder_types :
    (∀ ctx tn f ti col, unwrapType f = .ok ti → ti.name = "_" → tn ≠ "_" →
      parseFieldNode ctx tn f = .ok col →
      col.array = true ∧ col.type = "array") ∧
    (∀ ctx tn f col n, f.type = .namedType n → n.value = "_" →
      parseFieldNode ctx tn f ≠ .ok col) ∧
    (∀ ctx tn f n r, f.type = .namedType n → n.value = "_" →
      validateDirectives f.directives
        [DIRECTIVE_REF, DIRECTIVE_UNIQUE, DIRECTIVE_LOCALIZED, DIRECTIVE_FILE,
          DIRECTIVE_FILES_GROUP] = .ok () →
      referencesField f = .ok r →
      parseFieldNode ctx tn f =
        .error (.graphQLError "Unknown type is only allowed inside an array."
          (.typeNode f.type) none)) := by
  refine ⟨?_, ?_, ?_⟩
  · intro ctx tn f ti col hti hname htn h
    obtain ⟨rn, ti0, ti1, r1, ti2, r2, file, files, href', hti0, hcls, hres, _, _, _, hcol⟩ :=
      parseFieldNode_ok_inv h
    have harr : ti.array = true := unwrapType_underscore_array hti hname
    have hti0' : ti0 = ti := Except.ok.inj (hti0 ▸ hti)
    subst hti0'
    rw [classifyFieldType] at hcls
    rw [if_neg (by rw [hname]; exact fun hc => htn hc.symm)] at hcls
    rw [if_neg (by rw [hname]; decide)] at hcls
    rw [if_pos ⟨hname, harr⟩] at hcls
    obtain ⟨h1, h2⟩ := Prod.mk.injEq .. ▸ Except.ok.inj hcls
    rw [← h2] at hres
    obtain ⟨h3, h4⟩ := resolveRefColumn_none_refs_ok hres
    rw [hcol]
    constructor
    · show ti2.array = true
      rw [h3, ← h1]
      exact harr
    · show ti2.name = "array"
      rw [h3, ← h1]
  · intro ctx tn f col n ht hn h
    obtain ⟨rn, ti0, ti1, r1, ti2, r2, file, files, _, hti0, _, _, _, _, _, _⟩ :=
      parseFieldNode_ok_inv h
    rw [unwrapType_bare_underscore ht hn] at hti0
    exact Except.noConfusion hti0
  · intro ctx tn f n r ht hn hval href
    rw [parseFieldNode, hval, href, unwrapType_bare_underscore ht hn]

theorem C7_witness :
    parseFieldNode { typeDefsMap := [], enumDefsMap := [] } "Tbl"
      { name := { value := "h" }, description := none
      , type := .namedType { value := "_" }, directives := none } =
      .error (.graphQLError "Unknown type is only allowed inside an array."
        (.typeNode (.namedType { value := "_" })) none) :=
  C7_placeholder_types.2.2 { typeDefsMap := [], enumDefsMap := [] } "Tbl"
    { name := { value := "h" }, description := none
    , type := .namedType { value := "_" }, directives := none }
    { value := "_" } none rfl rfl rfl rfl

/-! ### Computation lemmas for the referenced-column block -/

theorem resolveRefColumn_wrap {ctx : Context} {f : FieldDefinitionNode}
    {refName : String} {ti : TypeInfo} {refs : Refs}
    {refDefNode : ObjectTypeDefinitionNode} {e' : RError}
    (h1 : refName ≠ "") (h2 : refs.table ≠ "")
    (hlk : lookupMap ctx.typeDefsMap refs.table = some refDefNode)
    (hfr : findReferencedField refDefNode refName = .error e') :
    resolveRefColumn ctx f (some refName) ti (some refs) =
      .error (.graphQLError "An error occurred while validating the referenced column."
        (.optDirective (findDirective f.directives DIRECTIVE_REF.name)) (some e')) := by
  simp [resolveRefColumn.eq_def, h1, h2, hlk, hfr]

theorem resolveRefColumn_notfound {ctx : Context} {f : FieldDefinitionNode}
    {refName : String} {ti : TypeInfo} {refs : Refs}
    {refDefNode : ObjectTypeDefinitionNode}
    (h1 : refName ≠ "") (h2 : refs.table ≠ "")
    (hlk : lookupMap ctx.typeDefsMap refs.table = some refDefNode)
    (hfr : findReferencedField refDefNode refName = .ok none) :
    resolveRefColumn ctx f (some refName) ti (some refs) =
      .error (.graphQLError
        ("Can\x27t find column \"" ++ refName ++ "\" in table \"" ++ refs.table ++ "\".")
        (.optDirective (findDirective f.directives DIRECTIVE_REF.name)) none) := by
  simp [resolveRefColumn.eq_def, h1, h2, hlk, hfr]

theorem resolveRefColumn_found {ctx : Context} {f : FieldDefinitionNode}
    {refName : String} {ti : TypeInfo} {refs : Refs}
    {refDefNode : ObjectTypeDefinitionNode} {t : String}
    (h1 : refName ≠ "") (h2 : refs.table ≠ "") (ht : t ≠ "")
    (hlk : lookupMap ctx.typeDefsMap refs.table = some refDefNode)
    (hfr : findReferencedField refDefNode refName = .ok (some t)) :
    resolveRefColumn ctx f (some refName) ti (some refs) =
      .ok ({ ti with name := t }, some { refs with column := some refName }) := by
  simp [resolveRefColumn.eq_def, h1, h2, ht, hlk, hfr]

/-! ### Claim C2 -/

/-- An enumeration `E` with `@indexing(first: 0)` and enumerator `A`. -/
def exEnumE : EnumTypeDefinitionNode :=
  { name := { value := "E" }, directives := some [indexingDirective 0]
  , values := some [{ name := { value := "A" } }] }

/-- A context declaring only the enumeration `E`. -/
def exCtxE : Context := { typeDefsMap := [], enumDefsMap := [("E", exEnumE)] }

/-- A field `f: E @ref(column: "x")` referencing a column of an enum type. -/
def exRefFieldE : FieldDefinitionNode :=
  { name := { value := "f" }, description := none
  , type := .namedType { value := "E" }, directives := some [refDirective "x"] }

/-- C2 counterexample: a field classified as an enumrow reference (non-null
`references.table`) does NOT resolve its `ref` annotation without an
internal assertion failure — the referenced definition is looked up in the
table map only, so the `refDefNode` assertion fires. -/
theorem C2_counterexample :
    classifyFieldType exCtxE "A" exRefFieldE { array := false, name := "E" } =
      .ok ({ array := false, name := "enumrow" }, some { table := "E" }) ∧
    parseFieldNode exCtxE "A" exRefFieldE = .error (.assertionError "refDefNode") :=
  ⟨rfl, rfl⟩

/-- C2 (amended): referenced-column resolution proceeds without internal
assertion failure — every failure being a user-facing error — exactly when
the (non-empty-named) reference target is present in the table map; when the
target name is absent from the table map (as for every enumrow reference),
the `refDefNode` assertion fails; and a null reference target fails the
`references?.table` assertion. -/
theorem C2_ref_resolution_assertions :
    (∀ ctx f refName ti refs e, refName ≠ "" → refs.table ≠ "" →
      (lookupMap ctx.typeDefsMap refs.table).isSome = true →
      resolveRefColumn ctx f (some refName) ti (some refs) = .error e →
      isGraphQLError e) ∧
    (∀ ctx f refName ti refs, refName ≠ "" → refs.table ≠ "" →
      lookupMap ctx.typeDefsMap refs.table = none →
      resolveRefColumn ctx f (some refName) ti (some refs) =
        .error (.assertionError "refDefNode")) ∧
    (∀ ctx f refName ti, refName ≠ "" →
      resolveRefColumn ctx f (some refName) ti none =
        .error (.assertionError "references?.table")) := by
  refine ⟨?_, ?_, ?_⟩
  · intro ctx f refName ti refs e h1 h2 h3 h
    obtain ⟨refDefNode, hlk⟩ := Option.isSome_iff_exists.mp h3
    cases hfr : findReferencedField refDefNode refName with
    | error e' =>
      rw [resolveRefColumn_wrap h1 h2 hlk hfr] at h
      exact ⟨_, _, _, (Except.error.inj h).symm⟩
    | ok rft =>
      cases rft with
      | none =>
        rw [resolveRefColumn_notfound h1 h2 hlk hfr] at h
        exact ⟨_, _, _, (Except.error.inj h).symm⟩
      | some t =>
        have ht : t ≠ "" := scalar_ne_empty (findReferencedField_ok_some hfr)
        rw [resolveRefColumn_found h1 h2 ht hlk hfr] at h
        exact Except.noConfusion h
  · intro ctx f refName ti refs h1 h2 hlk
    simp [resolveRefColumn.eq_def, h1, h2, hlk]
  · intro ctx f refName ti h1
    simp [resolveRefColumn.eq_def, h1]

theorem C2_witness :
    resolveRefColumn exCtxE exRefFieldE (some "x") { array := false, name := "enumrow" }
      (some { table := "E" }) = .error (.assertionError "refDefNode") :=
  C2_ref_resolution_assertions.2.1 exCtxE exRefFieldE "x"
    { array := false, name := "enumrow" } { table := "E" }
    (by decide) (by decide) rfl

/-! ### Claim C3 -/

/-- C3 counterexample: when the `ref`-named column does not exist in the
referenced table, the thrown error is attributed to the `ref` annotation
node but carries NO wrapped original cause (`originalError = none`). -/
theorem C3_counterexample :
    parseFieldNode exCtxT "A" (exRefField "zz") =
      .error (.graphQLError "Can\x27t find column \"zz\" in table \"T\"."
        (.optDirective (some (refDirective "zz"))) none) :=
  rfl

/-- C3 (amended): a failure raised while validating a column that was found
(`findReferencedField` error) is rethrown attributed to the `ref` directive
node with the original error as wrapped cause; the column-not-found case is
also attributed to the `ref` directive node but carries no wrapped cause;
and whenever a `ref` column name was extracted, the `ref` directive node is
present to be attributed. -/
theorem C3_ref_error_attribution :
    (∀ ctx f refName ti refs refDefNode e, refName ≠ "" → refs.table ≠ "" →
      lookupMap ctx.typeDefsMap refs.table = some refDefNode →
      findReferencedField refDefNode refName = .error e →
      resolveRefColumn ctx f (some refName) ti (some refs) =
        .error (.graphQLError "An error occurred while validating the referenced column."
          (.optDirective (findDirective f.directives DIRECTIVE_REF.name)) (some e))) ∧
    (∀ ctx f refName ti refs refDefNode, refName ≠ "" → refs.table ≠ "" →
      lookupMap ctx.typeDefsMap refs.table = some refDefNode →
      findReferencedField refDefNode refName = .ok none →
      resolveRefColumn ctx f (some refName) ti (some refs) =
        .error (.graphQLError
          ("Can\x27t find column \"" ++ refName ++ "\" in table \"" ++ refs.table ++ "\".")
          (.optDirective (findDirective f.directives DIRECTIVE_REF.name)) none)) ∧
    (∀ f x, referencesField f = .ok (some x) →
      (findDirective f.directives DIRECTIVE_REF.name).isSome = true) := by
  refine ⟨?_, ?_, ?_⟩
  · intro ctx f refName ti refs refDefNode e h1 h2 hlk hfr
    exact resolveRefColumn_wrap h1 h2 hlk hfr
  · intro ctx f refName ti refs refDefNode h1 h2 hlk hfr
    exact resolveRefColumn_notfound h1 h2 hlk hfr
  · intro f x h
    cases hd : findDirective f.directives DIRECTIVE_REF.name with
    | none =>
      rw [referencesField, hd] at h
      exact Option.noConfusion (Except.ok.inj h)
    | some d => rfl

theorem C3_witness :
    resolveRefColumn exCtxT (exRefField "arr") (some "arr")
      { array := false, name := "foreignrow" } (some { table := "T" }) =
      .error (.graphQLError "An error occurred while validating the referenced column."
        (.optDirective (some (refDirective "arr")))
        (some (.graphQLError "Сannot refer to a column with an array type."
          (.typeNode (.listType (.namedType { value := "i32" }))) none))) :=
  C3_ref_error_attribution.1 exCtxT (exRefField "arr") "arr"
    { array := false, name := "foreignrow" } { table := "T" } exTableT _
    (by decide) (by decide) rfl rfl

/-! ### Claim C8 -/

/-- Enum `E` with `@indexing(first: 0)` and enumerators `[_, A, A]`. -/
def exEnumDup : EnumTypeDefinitionNode :=
  { name := { value := "E" }, directives := some [indexingDirective 0]
  , values := some [{ name := { value := "_" } }, { name := { value := "A" } },
      { name := { value := "A" } }] }

/-- Enum `E` with `@indexing(first: 0)` and the single enumerator `_`. -/
def exEnumPlaceholder : EnumTypeDefinitionNode :=
  { name := { value := "E" }, directives := some [indexingDirective 0]
  , values := some [{ name := { value := "_" } }] }

/-- C8: an enumerator named `_` is recorded as a null placeholder slot; a
non-placeholder name already present among the collected enumerators fails
with a duplicate-enumerator error; a fresh non-placeholder name is appended;
after collection a sequence of exactly one null placeholder collapses to the
empty sequence while every other sequence is kept; concretely, `[_, A, A]`
fails on the second `A` and `[_]` alone resolves to no enumerators. -/
theorem C8_enumerator_collection :
    (∀ v rest acc, v.name.value = "_" →
      collectEnumerators (v :: rest) acc = collectEnumerators rest (acc ++ [none])) ∧
    (∀ v rest acc, v.name.value ≠ "_" → (some v.name.value) ∈ acc →
      collectEnumerators (v :: rest) acc =
        .error (.graphQLError ("Duplicate enumerator \"" ++ v.name.value ++ "\".")
          (.nameNode v.name) none)) ∧
    (∀ v rest acc, v.name.value ≠ "_" → ¬((some v.name.value) ∈ acc) →
      collectEnumerators (v :: rest) acc =
        collectEnumerators rest (acc ++ [some v.name.value])) ∧
    (finalizeEnumerators [none] = []) ∧
    (∀ es, es ≠ [none] → finalizeEnumerators es = es) ∧
    (parseEnumNode exEnumDup =
      .error (.graphQLError "Duplicate enumerator \"A\"."
        (.nameNode { value := "A" }) none)) ∧
    (parseEnumNode exEnumPlaceholder =
      .ok { name := "E", indexing := 0, enumerators := [] }) := by
  refine ⟨?_, ?_, ?_, rfl, ?_, rfl, rfl⟩
  · intro v rest acc h
    rw [collectEnumerators, if_pos h]
  · intro v rest acc h1 h2
    have hc : acc.contains (some v.name.value) = true := by
      simp only [List.contains, List.elem_iff]
      exact h2
    rw [collectEnumerators, if_neg h1, if_pos hc]
  · intro v rest acc h1 h2
    have hc : ¬(acc.contains (some v.name.value) = true) := by
      simp only [List.contains, List.elem_iff]
      exact h2
    rw [collectEnumerators, if_neg h1, if_neg hc]
  · intro es hne
    rw [finalizeEnumerators, if_neg]
    intro hc
    obtain ⟨hl, hh⟩ := hc
    cases es with
    | nil => simp at hl
    | cons a as =>
      have ha : a = none := by simpa using hh
      have has : as = [] := List.length_eq_zero.mp (by simpa using hl)
      exact hne (by rw [ha, has])

theorem C8_witness :
    collectEnumerators [{ name := { value := "A" } }] [none, some "A"] =
      .error (.graphQLError "Duplicate enumerator \"A\"."
        (.nameNode { value := "A" }) none) :=
  C8_enumerator_collection.2.1 { name := { value := "A" } } [] [none, some "A"]
    (by decide) (by decide)

/-! ### Claim C9 -/

theorem validateRefArgs_ok_iff : ∀ {args : List ArgumentNode},
    validateRefArgs args = .ok () ↔
      ∀ a ∈ args, a.name.value = "column" ∧ ∃ s, a.value = .stringValue s
  | [] => by simp [validateRefArgs]
  | arg :: rest => by
    by_cases hcol : arg.name.value = "column"
    · cases hv : arg.value with
      | stringValue s =>
        simp only [validateRefArgs, if_pos hcol, hv]
        rw [validateRefArgs_ok_iff]
        simp [List.forall_mem_cons, hcol, hv]
      | intValue n =>
        simp only [validateRefArgs, if_pos hcol, hv]
        refine iff_of_false (by simp) ?_
        intro hall
        obtain ⟨-, s, hs⟩ := hall arg (List.mem_cons_self arg rest)
        rw [hv] at hs
        exact ValueNode.noConfusion hs
      | listValue vs =>
        simp only [validateRefArgs, if_pos hcol, hv]
        refine iff_of_false (by simp) ?_
        intro hall
        obtain ⟨-, s, hs⟩ := hall arg (List.mem_cons_self arg rest)
        rw [hv] at hs
        exact ValueNode.noConfusion hs
      | otherValue =>
        simp only [validateRefArgs, if_pos hcol, hv]
        refine iff_of_false (by simp) ?_
        intro hall
        obtain ⟨-, s, hs⟩ := hall arg (List.mem_cons_self arg rest)
        rw [hv] at hs
        exact ValueNode.noConfusion hs
    · simp only [validateRefArgs, if_neg hcol]
      refine iff_of_false (by simp) ?_
      intro hall
      exact hcol (hall arg (List.mem_cons_self arg rest)).1

/-- A `@ref` directive with two well-formed `column` arguments. -/
def dupRefDirective : DirectiveNode :=
  { name := { value := "ref" }
  , arguments := some [{ name := { value := "column" }, value := .stringValue "a" },
      { name := { value := "column" }, value := .stringValue "b" }] }

/-- A field `f: T` carrying the duplicated `@ref` directive. -/
def dupRefField : FieldDefinitionNode :=
  { name := { value := "f" }, description := none
  , type := .namedType { value := "T" }, directives := some [dupRefDirective] }

/-- C9 counterexample: `@ref(column: "a", column: "b")` — more than one
argument of the correct name and kind — passes `DIRECTIVE_REF.validate`
without any error, so validation does NOT reject every argument list other
than a single `column` argument; the input is later rejected only by the
internal argument-shape assertion of `referencesField`, not by a
user-facing error. -/
theorem C9_counterexample :
    DIRECTIVE_REF.validate dupRefDirective = .ok () ∧
    referencesField dupRefField = .error (.assertionError "referencesField: args shape") :=
  ⟨rfl, rfl⟩

/-- C9 (amended): `ref` validation accepts exactly the non-empty argument
lists in which every argument is named `column` with a string value (hence a
list of several such arguments also passes); a missing argument list is a
descriptive user-facing error on the directive node, and every validation
failure is user-facing; an argument list of two or more entries — even
well-formed ones — makes the later extraction fail with the internal
argument-shape assertion, so it never yields an error-free result. -/
theorem C9_ref_directive_validation :
    (∀ d args, d.arguments = some args →
      (validateRef d = .ok () ↔
        args ≠ [] ∧ ∀ a ∈ args, a.name.value = "column" ∧ ∃ s, a.value = .stringValue s)) ∧
    (∀ d, argsLen d.arguments = 0 →
      validateRef d = .error (.graphQLError "Missing referenced column name."
        (.directiveNode d) none)) ∧
    (∀ d e, validateRef d = .error e → isGraphQLError e) ∧
    (∀ f d a b rest, findDirective f.directives DIRECTIVE_REF.name = some d →
      d.arguments = some (a :: b :: rest) →
      referencesField f = .error (.assertionError "referencesField: args shape")) := by
  refine ⟨?_, ?_, ?_, ?_⟩
  · intro d args hargs
    by_cases hlen : args.length = 0
    · have h0 : args = [] := List.length_eq_zero.mp hlen
      subst h0
      rw [validateRef, if_pos (by rw [hargs]; rfl)]
      refine iff_of_false (by simp) ?_
      intro hc
      exact hc.1 rfl
    · have hne : args ≠ [] := fun h => hlen (by rw [h]; rfl)
      rw [validateRef, if_neg (by rw [hargs]; exact hlen)]
      rw [hargs]
      show validateRefArgs args = .ok () ↔ _
      rw [validateRefArgs_ok_iff]
      simp [hne]
  · intro d h
    rw [validateRef, if_pos h]
  · intro d e h
    exact validateRef_error h
  · intro f d a b rest hfd hargs
    simp [referencesField, hfd, hargs]

theorem C9_witness :
    validateRef { name := { value := "ref" }, arguments := none } =
      .error (.graphQLError "Missing referenced column name."
        (.directiveNode { name := { value := "ref" }, arguments := none }) none) :=
  C9_ref_directive_validation.2.1 { name := { value := "ref" }, arguments := none } rfl

/-! ### Claim C1 -/

/-- The column resolved from `f: T @ref(column: "x")` against `exCtxT`. -/
def exRefColumn : TableColumn :=
  { name := some "f", description := none, array := false, type := "i32"
  , unique := false, localized := false
  , references := some { table := "T", column := some "x" }
  , until_ := none, file := none, files := none }

/-- C1: looking up a `ref`-named column in the target table: when the target
field is non-array, `@unique` and scalar, resolution returns its scalar type
name; when it is array-typed, not unique, or non-scalar, it fails with the
corresponding distinct error; and every successfully resolved column with a
`ref` annotation has `references.column` set to the named column and its
`type` overwritten with the target column's scalar type. -/
theorem C1_ref_column_resolution :
    (∀ tgt fields fld x ti,
      tgt.fields = some fields →
      fields.find? (fun field => field.name.value == x) = some fld →
      unwrapType fld = .ok ti →
      ((ti.array = false → isUnique fld = true → ScalarTypes.contains ti.name = true →
          findReferencedField tgt x = .ok (some ti.name)) ∧
       (ti.array = true →
          findReferencedField tgt x =
            .error (.graphQLError "Сannot refer to a column with an array type."
              (.typeNode fld.type) none)) ∧
       (ti.array = false → isUnique fld = false →
          findReferencedField tgt x =
            .error (.graphQLError "Values in the referenced column must be unique."
              (.fieldNode fld) none)) ∧
       (ti.array = false → isUnique fld = true → ScalarTypes.contains ti.name = false →
          findReferencedField tgt x =
            .error (.graphQLError "Сannot refer to a column with a non-scalar type."
              (.typeNode fld.type) none)))) ∧
    (∀ ctx tn f col x, referencesField f = .ok (some x) → x ≠ "" →
      parseFieldNode ctx tn f = .ok col →
      ∃ tbl tgt, col.references = some { table := tbl, column := some x } ∧
        lookupMap ctx.typeDefsMap tbl = some tgt ∧
        findReferencedField tgt x = .ok (some col.type) ∧
        ScalarTypes.contains col.type = true) := by
  constructor
  · intro tgt fields fld x ti h1 h2 h3
    refine ⟨?_, ?_, ?_, ?_⟩
    · intro ha hu hs
      have hmem : ti.name ∈ ScalarTypes := scalarTypes_mem_iff.mpr hs
      simp [findReferencedField, h1, h2, h3, ha, hu, hmem]
    · intro ha
      simp [findReferencedField, h1, h2, h3, ha]
    · intro ha hu
      simp [findReferencedField, h1, h2, h3, ha, hu]
    · intro ha hu hs
      have hnm : ti.name ∉ ScalarTypes := fun hm => by
        rw [scalarTypes_mem_iff, hs] at hm
        exact Bool.noConfusion hm
      simp [findReferencedField, h1, h2, h3, ha, hu, hnm]
  · intro ctx tn f col x href hx h
    obtain ⟨rn, ti0, ti1, r1, ti2, r2, file, files, href', hti0, hcls, hres, _, _, _, hcol⟩ :=
      parseFieldNode_ok_inv h
    have hrn : rn = some x := Except.ok.inj (href' ▸ href)
    subst hrn
    obtain ⟨refs, tgt, t, hr1, hlk, hfr, hti2, hr2⟩ := resolveRefColumn_some_ok_inv hx hres
    refine ⟨refs.table, tgt, ?_, hlk, ?_, ?_⟩
    · rw [hcol]
      show r2 = _
      rw [hr2]
    · rw [hcol]
      show findReferencedField tgt x = .ok (some ti2.name)
      rw [hti2]
      exact hfr
    · rw [hcol]
      show ScalarTypes.contains ti2.name = true
      rw [hti2]
      exact findReferencedField_ok_some hfr

theorem C1_witness :
    ∃ tbl tgt, exRefColumn.references = some { table := tbl, column := some "x" } ∧
      lookupMap exCtxT.typeDefsMap tbl = some tgt ∧
      findReferencedField tgt "x" = .ok (some exRefColumn.type) ∧
      ScalarTypes.contains exRefColumn.type = true :=
  C1_ref_column_resolution.2 exCtxT "A" (exRefField "x") exRefColumn "x" rfl
    (by decide) rfl

/-! ### Claim C10 -/

/-- A table named `N` with the single field `z: bool`. -/
def exTableN : ObjectTypeDefinitionNode :=
  { name := { value := "N" }
  , directives := none
  , fields := some
      [ { name := { value := "z" }, description := none
        , type := .namedType { value := "bool" }, directives := none } ] }

/-- An enumeration also named `N`, with `@indexing(first: 1)` and
enumerator `X`. -/
def exEnumN : EnumTypeDefinitionNode :=
  { name := { value := "N" }, directives := some [indexingDirective 1]
  , values := some [{ name := { value := "X" } }] }

/-- A table `C` with the single field `f: N` naming the shared name. -/
def exTableC : ObjectTypeDefinitionNode :=
  { name := { value := "C" }
  , directives := none
  , fields := some
      [ { name := { value := "f" }, description := none
        , type := .namedType { value := "N" }, directives := none } ] }

/-- One document declaring table `N`, enum `N` and table `C`. -/
def exSharedDoc : List DefinitionNode :=
  [.objectTypeDefinition exTableN, .enumTypeDefinition exEnumN,
    .objectTypeDefinition exTableC]

/-- The context built from `exSharedDoc`. -/
def exSharedCtx : Context :=
  { typeDefsMap := [("N", exTableN), ("C", exTableC)]
  , enumDefsMap := [("N", exEnumN)] }

/-- C10: a table definition and an enumeration definition may share a name —
inserting the pair never raises a duplicate-definition error, because each
kind is checked only against its own map; and a field whose base type is a
name present in both maps is always classified as a foreignrow reference to
the table, because the table map is consulted first; concretely a document
declaring table `N`, enum `N` and table `C {f: N}` resolves successfully
with `f` a foreignrow reference to `N`. -/
theorem C10_cross_kind_names :
    (∀ ctx node enode,
      lookupMap ctx.typeDefsMap node.name.value = none →
      lookupMap ctx.enumDefsMap enode.name.value = none →
      insertDefs [.objectTypeDefinition node, .enumTypeDefinition enode] ctx =
        .ok { typeDefsMap := ctx.typeDefsMap ++ [(node.name.value, node)]
            , enumDefsMap := ctx.enumDefsMap ++ [(enode.name.value, enode)] }) ∧
    (∀ ctx tn f ti n, ti.name = n → n ≠ tn → n ≠ "rid" → n ≠ "_" →
      ScalarTypes.contains n = false →
      (lookupMap ctx.typeDefsMap n).isSome = true →
      (lookupMap ctx.enumDefsMap n).isSome = true →
      classifyFieldType ctx tn f ti =
        .ok ({ ti with name := "foreignrow" }, some { table := n })) ∧
    (readSchemaSources [exSharedDoc] =
      .ok { tables :=
              [ { name := "N"
                , columns :=
                    [ { name := some "z", description := none, array := false
                      , type := "bool", unique := false, localized := false
                      , references := none, until_ := none, file := none
                      , files := none } ]
                , tags := [] }
              , { name := "C"
                , columns :=
                    [ { name := some "f", description := none, array := false
                      , type := "foreignrow", unique := false, localized := false
                      , references := some { table := "N" }, until_ := none
                      , file := none, files := none } ]
                , tags := [] } ]
          , enumerations := [{ name := "N", indexing := 1, enumerators := [some "X"] }] }) := by
  refine ⟨?_, ?_, rfl⟩
  · intro ctx node enode h1 h2
    simp [insertDefs, h1, h2]
  · intro ctx tn f ti n hn h2 h3 h4 h5 h6 h7
    subst hn
    have hnm : ti.name ∉ ScalarTypes := fun hm => by
      rw [scalarTypes_mem_iff, h5] at hm
      exact Bool.noConfusion hm
    simp [classifyFieldType, h2, h3, h4, hnm, h6]

theorem C10_witness :
    classifyFieldType exSharedCtx "C"
      { name := { value := "f" }, description := none
      , type := .namedType { value := "N" }, directives := none }
      { array := false, name := "N" } =
      .ok ({ array := false, name := "foreignrow" }, some { table := "N" }) :=
  C10_cross_kind_names.2.1 exSharedCtx "C"
    { name := { value := "f" }, description := none
    , type := .namedType { value := "N" }, directives := none }
    { array := false, name := "N" } "N" rfl (by decide) (by decide) (by decide)
    (by decide) rfl rfl

/-! ### Claim C6 -/

/-- Document defining a table named `a` with the single field `x: b`. -/
def refDocA (a b : String) : List DefinitionNode :=
  [.objectTypeDefinition
    { name := { value := a }
    , directives := none
    , fields := some
        [ { name := { value := "x" }, description := none
          , type := .namedType { value := b }, directives := none } ] }]

/-- Document defining a table named `b` with the single field `y: bool`. -/
def refDocB (b : String) : List DefinitionNode :=
  [.objectTypeDefinition
    { name := { value := b }
    , directives := none
    , fields := some
        [ { name := { value := "y" }, description := none
          , type := .namedType { value := "bool" }, directives := none } ] }]

/-- The resolved column `x: foreignrow → b`. -/
def fwdColumn (b : String) : TableColumn :=
  { name := some "x", description := none, array := false, type := "foreignrow"
  , unique := false, localized := false, references := some { table := b }
  , until_ := none, file := none, files := none }

/-- The resolved table `a` of `refDocA`. -/
def fwdTable (a b : String) : SchemaTable :=
  { name := a, columns := [fwdColumn b], tags := [] }

/-- The resolved table `b` of `refDocB`. -/
def boolTable (b : String) : SchemaTable :=
  { name := b, columns := [exColY], tags := [] }

/-- C6: for any distinct names `a` and `b` (with `b` not a scalar name, not
`rid` and not `_`), the pair of documents «table `a` with a field of type
`b`» and «table `b`» resolves successfully under BOTH input orders, and in
both the field is classified as a foreignrow reference to `b`: the symbol
maps are fully built from all documents before any field is resolved. -/
theorem C6_forward_reference (a b : String) (h1 : a ≠ b)
    (h2 : ScalarTypes.contains b = false) (h3 : b ≠ "rid") (h4 : b ≠ "_") :
    readSchemaSources [refDocA a b, refDocB b] =
      .ok { tables := [fwdTable a b, boolTable b], enumerations := [] } ∧
    readSchemaSources [refDocB b, refDocA a b] =
      .ok { tables := [boolTable b, fwdTable a b], enumerations := [] } := by
  have hb : b ≠ a := fun h => h1 h.symm
  have hbool : b ≠ "bool" := fun h => by
    rw [h] at h2
    exact absurd h2 (by decide)
  have hboolb : "bool" ≠ b := fun h => hbool h.symm
  have hab : (a == b) = false := by simp [h1]
  have hba : (b == a) = false := by simp [hb]
  have hsb : ScalarTypes.contains "bool" = true := by decide
  have hff : ScalarTypes.contains "foreignrow" = false := by decide
  have h2m : b ∉ ScalarTypes := fun hm => by
    rw [scalarTypes_mem_iff, h2] at hm
    exact Bool.noConfusion hm
  have hsbm : "bool" ∈ ScalarTypes := by decide
  have hffm : "foreignrow" ∉ ScalarTypes := by decide
  constructor <;>
    simp [readSchemaSources, buildContext, insertDefs, lookupMap, parseTables,
      parseTableNode, validateDirectives, validateDirectivesList, getTags,
      findDirective, parseColumns, parseFieldNode, referencesField, isUnique,
      isLocalized, unwrapType, classifyFieldType, resolveRefColumn.eq_def,
      getFileExtension, getFileGroupExtensions, parseEnums, refDocA, refDocB,
      fwdTable, boolTable, fwdColumn, exColY, argsLen,
      h1, h2, h3, h4, hb, hab, hba, hboolb, hsb, hff, h2m, hsbm, hffm]

theorem C6_witness :
    readSchemaSources [refDocA "A" "B", refDocB "B"] =
      .ok { tables := [fwdTable "A" "B", boolTable "B"], enumerations := [] } ∧
    readSchemaSources [refDocB "B", refDocA "A" "B"] =
      .ok { tables := [boolTable "B", fwdTable "A" "B"], enumerations := [] } :=
  C6_forward_reference "A" "B" (by decide) (by decide) (by decide) (by decide)

end DatSchema
